import Mathlib

/-!
# Video analytics streaming dashboard: stream handlers, aggregator and page scripts

A shallow embedding of

* `src/lambda-functions/activeuser-appsync-function/index.js`
* `src/lambda-functions/recentvideoview-appsync-function/index.js`
* `src/lambda-functions/totalvideoview-appsync-function/index.js`
* `src/web/player-update/real-time-analytics.js` (`getVideoId`, `trackView`, `startTracking`)
* `src/lambda-functions/count-active-sessions/index.js`
* `src/web/player-update/analytics-dashboard.js` (`updatePopularVideos`)

The JavaScript runtime pieces the handlers and the page scripts call
(`Buffer.from(_, 'base64')`, `Buffer#toString('utf8')`, `JSON.parse`,
`Promise.all`, property access, `||`, `ToNumber`, `Array.prototype.sort`) are
modelled in the first sections and beside their use; the handlers follow the
source line by line.
-/

set_option autoImplicit false

/-! ## JavaScript values -/

mutual
/-- A JavaScript value as `JSON.parse` can produce it, plus `undefined` (the
result of reading a property that is not there).  A number is kept as the
decimal literal `mantissa * 10 ^ exponent` that denotes it. -/
inductive JSValue where
  | undefined
  | null
  | bool (b : Bool)
  | num (mantissa : Int) (exponent : Int)
  | str (s : String)
  | arr (items : JSItems)
  | obj (props : JSProps)
  deriving DecidableEq
/-- The elements of an array. -/
inductive JSItems where
  | nil
  | cons (head : JSValue) (tail : JSItems)
  deriving DecidableEq
/-- The own properties of an object, in insertion order. -/
inductive JSProps where
  | nil
  | cons (key : String) (value : JSValue) (tail : JSProps)
  deriving DecidableEq
end

namespace JSProps

/-- The own property `key`, if the object has one. -/
def lookup : JSProps → String → Option JSValue
  | nil, _ => none
  | cons k v tail, key => if k = key then some v else lookup tail key

/-- Property definition as `JSON.parse` does it: a repeated key keeps its
place and takes the later value. -/
def set : JSProps → String → JSValue → JSProps
  | nil, key, v => cons key v nil
  | cons k w tail, key, v => if k = key then cons k v tail else cons k w (set tail key v)

end JSProps

namespace JSItems

/-- Append one element at the end of an array. -/
def push : JSItems → JSValue → JSItems
  | nil, v => cons v nil
  | cons h t, v => cons h (push t v)

end JSItems

namespace JSValue

/-- The number one, the default of every count field. -/
def one : JSValue := num 1 0

/-- Whether the double nearest to `mantissa * 10 ^ exponent` is different from
zero: the literal is not zero and is larger than `2 ^ (-1075)`, half the
smallest subnormal, below which it rounds to zero. -/
def numNonZero (mantissa exponent : Int) : Bool :=
  if 0 ≤ exponent then decide (mantissa ≠ 0)
  else decide (10 ^ exponent.natAbs < mantissa.natAbs * 2 ^ 1075)

/-- ECMAScript `ToBoolean`. -/
def toBoolean : JSValue → Bool
  | undefined => false
  | null => false
  | bool b => b
  | num m e => numNonZero m e
  | str s => decide (s ≠ "")
  | arr _ => true
  | obj _ => true

/-- Property read `value.key` for the keys the handlers and the page scripts
read (`VIDEOID`, `video_id`, `id`, `VIEWS`, `recent_views`, `total_views`,
`USER_COUNT`, `count`, `errors`, `data`, `getVideo`, `updateVideo`): `none`
stands for the `TypeError` thrown on `null` and `undefined`; an object gives
its own property or `undefined`; a number, a string, a boolean and an array
have none of these keys and give `undefined`. -/
def getProp : JSValue → String → Option JSValue
  | undefined, _ => none
  | null, _ => none
  | obj props, key => some ((props.lookup key).getD undefined)
  | _, _ => some undefined

end JSValue

/-! ## Numbers: `ToNumber` and the sign of a difference -/

/-- A Number value: `NaN`, an infinity, or a finite double, kept as the
rational it is exactly.  The two zeros are one value here: the page scripts
subtract, test for truthiness and print, which do not tell them apart. -/
inductive JSNumber where
  | nan
  | negInf
  | finite (q : ℚ)
  | posInf
  deriving DecidableEq

namespace JSNumber

/-- The sign of the difference `x - y` as `SortCompare` reads it: `NaN` (an
operand is `NaN`, or both are the same infinity) counts as `+0`.  The
difference of two distinct doubles is never rounded to zero, so for finite
operands the sign is that of the exact difference. -/
def subSign : JSNumber → JSNumber → Int
  | nan, _ => 0
  | _, nan => 0
  | posInf, posInf => 0
  | negInf, negInf => 0
  | posInf, _ => 1
  | _, posInf => -1
  | negInf, _ => -1
  | _, negInf => 1
  | finite a, finite b => if a < b then -1 else if a = b then 0 else 1

/-- The comparison `x >= y`: false when an operand is `NaN`. -/
def atLeast : JSNumber → JSNumber → Bool
  | nan, _ => false
  | _, nan => false
  | posInf, _ => true
  | _, negInf => true
  | negInf, _ => false
  | _, posInf => false
  | finite a, finite b => decide (b ≤ a)

/-- The position of the leading bit of `m`, which is `⌊log2 m⌋`, and 0 for 0;
the first argument bounds the number of halvings. -/
def leadingBit : Nat → Nat → Nat
  | 0, _ => 0
  | fuel + 1, m => if 2 ≤ m then leadingBit fuel (m / 2) + 1 else 0

/-- The double nearest to the positive rational `n / d`, ties to even.  With
`2 ^ k ≤ n / d < 2 ^ (k + 1)` the doubles around `n / d` are the multiples of
`2 ^ p` for `p = max (k - 52) (-1074)`; the quotient by `2 ^ p` is rounded to
the nearest integer `r`, and a result `r * 2 ^ p` of `2 ^ 1024` or more, which
is one with `1024 ≤ ⌊log2 r⌋ + p`, is `Infinity`. -/
def roundPos (n d : Nat) : JSNumber :=
  let k0 : Int := (leadingBit n n : Int) - (leadingBit d d : Int)
  let k : Int := if d * 2 ^ k0.toNat ≤ n * 2 ^ (-k0).toNat then k0 else k0 - 1
  let p : Int := max (k - 52) (-1074)
  let num : Nat := n * 2 ^ (-p).toNat
  let den : Nat := d * 2 ^ p.toNat
  let r : Nat := num / den
  let r1 : Nat :=
    if den < 2 * (num % den) ∨ (2 * (num % den) = den ∧ r % 2 = 1) then r + 1 else r
  if 1024 ≤ leadingBit r1 r1 + p.toNat then posInf
  else finite (mkRat (r1 * 2 ^ p.toNat : Nat) (2 ^ (-p).toNat))

/-- The Number value of the decimal `mantissa * 10 ^ exponent`: the value of a
numeric literal, of a JSON number and of a numeric string. -/
def ofDecimal (mantissa exponent : Int) : JSNumber :=
  if mantissa = 0 then finite 0
  else
    match roundPos (mantissa.natAbs * 10 ^ exponent.toNat) (10 ^ (-exponent).toNat) with
    | finite q => finite (if mantissa < 0 then -q else q)
    | posInf => if mantissa < 0 then negInf else posInf
    | other => other

end JSNumber

/-! ### `StringToNumber` -/

namespace StringToNumber

/-- The class `StrWhiteSpaceChar`: white space and line terminators. -/
def isWhiteSpace (c : Char) : Bool :=
  decide (c.toNat ∈ [0x9, 0xA, 0xB, 0xC, 0xD, 0x20, 0xA0, 0x1680, 0x2028, 0x2029, 0x202F,
    0x205F, 0x3000, 0xFEFF]) || decide (0x2000 ≤ c.toNat ∧ c.toNat ≤ 0x200A)

/-- The text without the white space at its two ends. -/
def trim (cs : List Char) : List Char :=
  ((cs.dropWhile isWhiteSpace).reverse.dropWhile isWhiteSpace).reverse

/-- The value of a digit in the given radix. -/
def digitValue (radix : Nat) (c : Char) : Option Nat :=
  let v : Option Nat :=
    if '0' ≤ c ∧ c ≤ '9' then some (c.toNat - 48)
    else if 'a' ≤ c ∧ c ≤ 'f' then some (c.toNat - 97 + 10)
    else if 'A' ≤ c ∧ c ≤ 'F' then some (c.toNat - 65 + 10)
    else none
  v.bind (fun d => if d < radix then some d else none)

/-- The value of a non-empty run of digits in the given radix that makes up
the whole of `cs`. -/
def digits (radix : Nat) (cs : List Char) : Option Nat :=
  if cs.isEmpty then none
  else cs.foldl (fun acc c => acc.bind (fun n => (digitValue radix c).map (fun d => n * radix + d)))
    (some 0)

/-- The digits at the front of `cs` and what follows them. -/
def leadingDigits (cs : List Char) : List Char × List Char :=
  (cs.takeWhile Char.isDigit, cs.dropWhile Char.isDigit)

/-- The part `ExponentPart`, optional: nothing, or `e` or `E`, an optional
sign and at least one digit, up to the end of the text. -/
def exponentPart (cs : List Char) : Option Int :=
  match cs with
  | [] => some 0
  | c :: rest =>
    if c = 'e' ∨ c = 'E' then
      match rest with
      | '+' :: ds => (digits 10 ds).map (fun n => (n : Int))
      | '-' :: ds => (digits 10 ds).map (fun n => -(n : Int))
      | ds => (digits 10 ds).map (fun n => (n : Int))
    else none

/-- The production `StrUnsignedDecimalLiteral` without `Infinity`:
`digits . digits? exponent?`, `. digits exponent?` or `digits exponent?`; the
value is `mantissa * 10 ^ exponent`. -/
def unsignedDecimal (cs : List Char) : Option (Nat × Int) :=
  let (whole, rest) := leadingDigits cs
  match rest with
  | '.' :: more =>
    let (fraction, tail) := leadingDigits more
    if whole.isEmpty && fraction.isEmpty then none
    else
      match digits 10 ('0' :: (whole ++ fraction)), exponentPart tail with
      | some m, some e => some (m, e - fraction.length)
      | _, _ => none
  | tail =>
    match digits 10 whole, exponentPart tail with
    | some m, some e => some (m, e)
    | _, _ => none

/-- The production `StrDecimalLiteral`: an optional sign before `Infinity` or
an unsigned decimal; `NaN` when the text is neither. -/
def decimalLiteral (cs : List Char) : JSNumber :=
  let negative := cs.head? = some '-'
  let body := if cs.head? = some '+' ∨ cs.head? = some '-' then cs.tail else cs
  if body = "Infinity".toList then (if negative then JSNumber.negInf else JSNumber.posInf)
  else
    match unsignedDecimal body with
    | some (m, e) => JSNumber.ofDecimal (if negative then -(m : Int) else m) e
    | none => JSNumber.nan

/-- The production `NonDecimalIntegerLiteral`: `0x`, `0o` or `0b` (the letter in
either case) and at least one digit of the radix; it takes no sign. -/
def nonDecimal (cs : List Char) : Option Nat :=
  match cs with
  | '0' :: c :: ds =>
    if c = 'x' ∨ c = 'X' then digits 16 ds
    else if c = 'o' ∨ c = 'O' then digits 8 ds
    else if c = 'b' ∨ c = 'B' then digits 2 ds
    else none
  | _ => none

end StringToNumber

/-- The abstract operation `StringToNumber`: the empty text and white space
alone give 0, a numeric literal between optional white space its value, and
every other text `NaN`. -/
def stringToNumber (s : String) : JSNumber :=
  let cs := StringToNumber.trim s.toList
  if cs.isEmpty then JSNumber.finite 0
  else
    match StringToNumber.nonDecimal cs with
    | some n => JSNumber.ofDecimal n 0
    | none => StringToNumber.decimalLiteral cs

/-! ### `ToPrimitive` and `ToNumber` on the values of `JSON.parse` -/

mutual
/-- Whether `ToPrimitive` returns on the value.  An object made by
`JSON.parse` inherits `toString` and `valueOf` from `Object.prototype`; an own
property `toString` holds a JSON value, which is not callable, and then
neither method yields a primitive: `TypeError`.  An array is converted by
`join`, which converts every element other than `null` to a string. -/
def JSValue.primitivable : JSValue → Bool
  | JSValue.arr items => items.primitivable
  | JSValue.obj props => (props.lookup "toString").isNone
  | _ => true
/-- The conversion of every element returns. -/
def JSItems.primitivable : JSItems → Bool
  | JSItems.nil => true
  | JSItems.cons head tail => head.primitivable && tail.primitivable
end

mutual
/-- The Number value of the text that `join` writes for one array element:
nothing for `null` and `undefined`, the element's string otherwise.  The
string of a number converts back to that number, `true`, `false` and
`[object Object]` are not numeric. -/
def JSValue.joinedNumber : JSValue → JSNumber
  | JSValue.undefined => JSNumber.finite 0
  | JSValue.null => JSNumber.finite 0
  | JSValue.bool _ => JSNumber.nan
  | JSValue.num m e => JSNumber.ofDecimal m e
  | JSValue.str s => stringToNumber s
  | JSValue.arr items => items.joinedNumber
  | JSValue.obj _ => JSNumber.nan
/-- The Number value of the text `items.join(",")`: 0 for the empty text of
an empty array, the element's for one element, and `NaN` as soon as there is
a comma. -/
def JSItems.joinedNumber : JSItems → JSNumber
  | JSItems.nil => JSNumber.finite 0
  | JSItems.cons head JSItems.nil => head.joinedNumber
  | JSItems.cons _ (JSItems.cons _ _) => JSNumber.nan
end

/-- ECMAScript `ToNumber`; `none` stands for the `TypeError` of a value that
has no primitive. -/
def JSValue.toNumber : JSValue → Option JSNumber
  | JSValue.undefined => some JSNumber.nan
  | JSValue.null => some (JSNumber.finite 0)
  | JSValue.bool b => some (JSNumber.finite (if b then 1 else 0))
  | JSValue.num m e => some (JSNumber.ofDecimal m e)
  | JSValue.str s => some (stringToNumber s)
  | JSValue.arr items => if items.primitivable then some items.joinedNumber else none
  | JSValue.obj props => if (props.lookup "toString").isNone then some JSNumber.nan else none

/-! ## `Buffer.from(data, 'base64')` -/

namespace Base64

/-- The bytes the decoder reads a character as: it walks the UTF-16 code
units of the string and keeps the low eight bits of each. -/
def codeBytes (c : Char) : List Nat :=
  if c.toNat < 0x10000 then [c.toNat % 256]
  else [(0xD800 + (c.toNat - 0x10000) / 0x400) % 256,
    (0xDC00 + (c.toNat - 0x10000) % 0x400) % 256]

/-- The value of a byte in the base64 alphabet (`A`-`Z`, `a`-`z`, `0`-`9`); as
in Node the URL-safe `-` and `_` are accepted along with `+` and `/`. -/
def unbase64 (b : Nat) : Option Nat :=
  if 65 ≤ b ∧ b ≤ 90 then some (b - 65)
  else if 97 ≤ b ∧ b ≤ 122 then some (b - 97 + 26)
  else if 48 ≤ b ∧ b ≤ 57 then some (b - 48 + 52)
  else if b = 43 ∨ b = 45 then some 62
  else if b = 47 ∨ b = 95 then some 63
  else none

/-- The sextets Node's decoder reads from the bytes: it stops at the first `=`
(byte 61) and skips every other byte outside the alphabet. -/
def sextets : List Nat → List Nat
  | [] => []
  | b :: bs =>
    if b = 61 then []
    else match unbase64 b with
      | some v => v :: sextets bs
      | none => sextets bs

/-- Four sextets give three bytes; a final group of two or three sextets gives
one or two bytes and a single left-over sextet gives none. -/
def bytesOfSextets : List Nat → List Nat
  | a :: b :: c :: d :: rest =>
    ((a * 4 + b / 16) % 256) :: ((b * 16 + c / 4) % 256) :: ((c * 64 + d) % 256)
      :: bytesOfSextets rest
  | [a, b, c] => [(a * 4 + b / 16) % 256, (b * 16 + c / 4) % 256]
  | [a, b] => [(a * 4 + b / 16) % 256]
  | _ => []

/-- The bytes of `Buffer.from(data, 'base64')` for a string `data`: the call
never throws on a string. -/
def decode (data : String) : List Nat :=
  bytesOfSextets (sextets (data.toList.map codeBytes).flatten)

/-- A string is base64 as RFC 4648 section 4 writes it: characters of the
standard alphabet, a length that is a multiple of four, and at most two `=`
that stand at the very end. -/
def isCanonical (data : String) : Bool :=
  let cs := data.toList
  let body := cs.takeWhile (fun c => c ≠ '=')
  let padding := cs.dropWhile (fun c => c ≠ '=')
  decide (cs.length % 4 = 0)
    && body.all (fun c => c.isAlphanum || c = '+' || c = '/')
    && padding.all (fun c => c = '=')
    && decide (padding.length ≤ 2)

end Base64

/-! ## `Buffer#toString('utf8')` -/

namespace Utf8

/-- Whether a byte is a continuation byte within the given bounds. -/
def inRange (lo hi b : Nat) : Bool := decide (lo ≤ b) && decide (b ≤ hi)

/-- The replacement character U+FFFD. -/
def replacement : Char := Char.ofNat 0xFFFD

/-- The bounds of the first continuation byte after a lead byte of a
three- or four-byte sequence. -/
def firstBounds (lead : Nat) : Nat × Nat :=
  if lead = 0xE0 then (0xA0, 0xBF)
  else if lead = 0xED then (0x80, 0x9F)
  else if lead = 0xF0 then (0x90, 0xBF)
  else if lead = 0xF4 then (0x80, 0x8F)
  else (0x80, 0xBF)

/-- The decoder's state between two bytes: how many continuation bytes are
still needed, the code point read so far and the bounds of the next byte. -/
structure State where
  needed : Nat
  codePoint : Nat
  lower : Nat
  upper : Nat

/-- The state in which no sequence is open. -/
def State.initial : State := ⟨0, 0, 0x80, 0xBF⟩

/-- Read a byte when no sequence is open. -/
def start (b : Nat) : List Char × State :=
  if b < 0x80 then ([Char.ofNat b], State.initial)
  else if inRange 0xC2 0xDF b then ([], ⟨1, b - 0xC0, 0x80, 0xBF⟩)
  else if inRange 0xE0 0xEF b then ([], ⟨2, b - 0xE0, (firstBounds b).1, (firstBounds b).2⟩)
  else if inRange 0xF0 0xF4 b then ([], ⟨3, b - 0xF0, (firstBounds b).1, (firstBounds b).2⟩)
  else ([replacement], State.initial)

/-- Read one byte: a byte that breaks an open sequence gives U+FFFD and is
then read again as the start of a new sequence. -/
def step (st : State) (b : Nat) : List Char × State :=
  if st.needed = 0 then start b
  else if inRange st.lower st.upper b then
    if st.needed = 1 then ([Char.ofNat (st.codePoint * 64 + (b - 0x80))], State.initial)
    else ([], ⟨st.needed - 1, st.codePoint * 64 + (b - 0x80), 0x80, 0xBF⟩)
  else (replacement :: (start b).1, (start b).2)

/-- UTF-8 decoding with replacement, from a given state: a sequence left open
at the end of the input gives a final U+FFFD. -/
def decodeFrom : State → List Nat → List Char
  | st, [] => if st.needed = 0 then [] else [replacement]
  | st, b :: rest => (step st b).1 ++ decodeFrom (step st b).2 rest

/-- The text of `buffer.toString('utf8')`: the call never throws. -/
def decode (bytes : List Nat) : String :=
  String.mk (decodeFrom State.initial bytes)

end Utf8

/-! ## `JSON.parse` -/

namespace JSON

/-- JSON whitespace: space, tab, line feed, carriage return. -/
def isWhitespace (c : Char) : Bool :=
  c = ' ' || c = '\t' || c = '\n' || c = '\r'

/-- Drop leading whitespace. -/
def skipWs (cs : List Char) : List Char :=
  cs.dropWhile isWhitespace

/-- The value of a string of decimal digits. -/
def natOfDigits (ds : List Char) : Nat :=
  ds.foldl (fun n c => 10 * n + (c.toNat - 48)) 0

/-- The value of a hexadecimal digit. -/
def hexDigit (c : Char) : Option Nat :=
  if '0' ≤ c ∧ c ≤ '9' then some (c.toNat - 48)
  else if 'a' ≤ c ∧ c ≤ 'f' then some (c.toNat - 87)
  else if 'A' ≤ c ∧ c ≤ 'F' then some (c.toNat - 55)
  else none

/-- The code unit written by the four hexadecimal digits of a `\u` escape. -/
def hex4 (a b c d : Char) : Option Nat :=
  match hexDigit a, hexDigit b, hexDigit c, hexDigit d with
  | some w, some x, some y, some z => some (w * 4096 + x * 256 + y * 16 + z)
  | _, _, _, _ => none

/-- The integer part of a number: a single `0`, or a non-empty run of digits
that does not start with `0`. -/
def intDigits : List Char → Option (List Char × List Char)
  | '0' :: rest => some (['0'], rest)
  | cs =>
    let ds := cs.takeWhile Char.isDigit
    if ds.isEmpty then none else some (ds, cs.dropWhile Char.isDigit)

/-- The optional fraction: a `.` followed by at least one digit. -/
def fracDigits : List Char → Option (List Char × List Char)
  | '.' :: rest =>
    let ds := rest.takeWhile Char.isDigit
    if ds.isEmpty then none else some (ds, rest.dropWhile Char.isDigit)
  | cs => some ([], cs)

/-- The digits of an exponent, at least one. -/
def expDigits (negative : Bool) (cs : List Char) : Option (Int × List Char) :=
  let ds := cs.takeWhile Char.isDigit
  if ds.isEmpty then none
  else some (if negative then -(natOfDigits ds : Int) else (natOfDigits ds : Int),
    cs.dropWhile Char.isDigit)

/-- The optional exponent: `e` or `E`, an optional sign, digits. -/
def exponentPart : List Char → Option (Int × List Char)
  | 'e' :: '+' :: rest => expDigits false rest
  | 'e' :: '-' :: rest => expDigits true rest
  | 'e' :: rest => expDigits false rest
  | 'E' :: '+' :: rest => expDigits false rest
  | 'E' :: '-' :: rest => expDigits true rest
  | 'E' :: rest => expDigits false rest
  | cs => some (0, cs)

/-- The digits, fraction and exponent of a number after its sign. -/
def parseUnsigned (negative : Bool) (cs : List Char) : Option (JSValue × List Char) :=
  match intDigits cs with
  | none => none
  | some (whole, rest1) =>
    match fracDigits rest1 with
    | none => none
    | some (frac, rest2) =>
      match exponentPart rest2 with
      | none => none
      | some (e, rest3) =>
        let m : Int := natOfDigits (whole ++ frac)
        some (JSValue.num (if negative then -m else m) (e - frac.length), rest3)

/-- A JSON number: `-? (0 | [1-9][0-9]*) (. [0-9]+)? ([eE] [+-]? [0-9]+)?`. -/
def parseNumber : List Char → Option (JSValue × List Char)
  | '-' :: rest => parseUnsigned true rest
  | cs => parseUnsigned false cs

/-- The character of a simple escape. -/
def simpleEscape (c : Char) : Option Char :=
  if c = '"' then some '"'
  else if c = '\\' then some '\\'
  else if c = '/' then some '/'
  else if c = 'b' then some (Char.ofNat 8)
  else if c = 'f' then some (Char.ofNat 12)
  else if c = 'n' then some '\n'
  else if c = 'r' then some '\r'
  else if c = 't' then some '\t'
  else none

/-- The text of a string after its opening quote, up to the closing quote.
Control characters below U+0020 are rejected.  A `\u` escape of a high
surrogate followed by one of a low surrogate gives the character they encode;
a surrogate escape on its own is kept as U+FFFD, since a Lean string has no
unpaired surrogates (no handler looks inside a string). -/
def parseChars : Nat → List Char → List Char → Option (String × List Char)
  | 0, _, _ => none
  | _ + 1, _, [] => none
  | fuel + 1, acc, c :: rest =>
    if c = '"' then some (String.mk acc.reverse, rest)
    else if c = '\\' then
      match rest with
      | 'u' :: h1 :: h2 :: h3 :: h4 :: rest1 =>
        match hex4 h1 h2 h3 h4 with
        | none => none
        | some hi =>
          if 0xD800 ≤ hi ∧ hi < 0xDC00 then
            match rest1 with
            | '\\' :: 'u' :: l1 :: l2 :: l3 :: l4 :: rest2 =>
              match hex4 l1 l2 l3 l4 with
              | none => none
              | some lo =>
                if 0xDC00 ≤ lo ∧ lo < 0xE000 then
                  parseChars fuel
                    (Char.ofNat (0x10000 + (hi - 0xD800) * 1024 + (lo - 0xDC00)) :: acc) rest2
                else parseChars fuel (Utf8.replacement :: acc) rest1
            | _ => parseChars fuel (Utf8.replacement :: acc) rest1
          else if 0xDC00 ≤ hi ∧ hi < 0xE000 then parseChars fuel (Utf8.replacement :: acc) rest1
          else parseChars fuel (Char.ofNat hi :: acc) rest1
      | e :: rest1 =>
        match simpleEscape e with
        | some ch => parseChars fuel (ch :: acc) rest1
        | none => none
      | [] => none
    else if c.toNat < 0x20 then none
    else parseChars fuel (c :: acc) rest

mutual
/-- A JSON value with the text that follows it; `fuel` bounds the number of
nested and successive values, and the length of the text is always enough. -/
def parseValue : Nat → List Char → Option (JSValue × List Char)
  | 0, _ => none
  | fuel + 1, cs =>
    match skipWs cs with
    | 'n' :: 'u' :: 'l' :: 'l' :: rest => some (JSValue.null, rest)
    | 't' :: 'r' :: 'u' :: 'e' :: rest => some (JSValue.bool true, rest)
    | 'f' :: 'a' :: 'l' :: 's' :: 'e' :: rest => some (JSValue.bool false, rest)
    | '"' :: rest =>
      match parseChars (rest.length + 1) [] rest with
      | some (s, rest1) => some (JSValue.str s, rest1)
      | none => none
    | '[' :: rest =>
      match skipWs rest with
      | ']' :: rest1 => some (JSValue.arr JSItems.nil, rest1)
      | _ =>
        match parseElements fuel JSItems.nil rest with
        | some (items, rest1) => some (JSValue.arr items, rest1)
        | none => none
    | '{' :: rest =>
      match skipWs rest with
      | '}' :: rest1 => some (JSValue.obj JSProps.nil, rest1)
      | _ =>
        match parseMembers fuel JSProps.nil rest with
        | some (props, rest1) => some (JSValue.obj props, rest1)
        | none => none
    | other => parseNumber other
/-- The elements of a non-empty array after `[` or `,`, up to `]`. -/
def parseElements : Nat → JSItems → List Char → Option (JSItems × List Char)
  | 0, _, _ => none
  | fuel + 1, acc, cs =>
    match parseValue fuel cs with
    | none => none
    | some (v, rest) =>
      match skipWs rest with
      | ',' :: rest1 => parseElements fuel (acc.push v) rest1
      | ']' :: rest1 => some (acc.push v, rest1)
      | _ => none
/-- The members of a non-empty object after `{` or `,`, up to `}`. -/
def parseMembers : Nat → JSProps → List Char → Option (JSProps × List Char)
  | 0, _, _ => none
  | fuel + 1, acc, cs =>
    match skipWs cs with
    | '"' :: rest =>
      match parseChars (rest.length + 1) [] rest with
      | none => none
      | some (key, rest1) =>
        match skipWs rest1 with
        | ':' :: rest2 =>
          match parseValue fuel rest2 with
          | none => none
          | some (v, rest3) =>
            match skipWs rest3 with
            | ',' :: rest4 => parseMembers fuel (acc.set key v) rest4
            | '}' :: rest4 => some (acc.set key v, rest4)
            | _ => none
        | _ => none
    | _ => none
end

/-- The value of `JSON.parse(text)`; `none` stands for the `SyntaxError` it
throws when the text is not one JSON value between optional whitespace. -/
def parse (text : String) : Option JSValue :=
  match parseValue (text.length + 1) text.toList with
  | some (v, rest) => if (skipWs rest).isEmpty then some v else none
  | none => none

end JSON

/-! ## The stream-host contract and the backend -/

/-- One record of the batch the stream host hands to a handler. -/
structure StreamRecord where
  recordId : String
  data : String
  deriving DecidableEq

/-- One entry of the `records` list a handler answers with. -/
structure RecordOutcome where
  recordId : String
  result : String
  data : String
  deriving DecidableEq

/-- The object literal `{ recordId: record.recordId, result: 'Ok', data: record.data }`. -/
def RecordOutcome.ok (record : StreamRecord) : RecordOutcome :=
  ⟨record.recordId, "Ok", record.data⟩

/-- The object literal
`{ recordId: record.recordId, result: 'ProcessingFailed', data: record.data }`. -/
def RecordOutcome.failed (record : StreamRecord) : RecordOutcome :=
  ⟨record.recordId, "ProcessingFailed", record.data⟩

/-- A GraphQL request body: the operation header of its query document and
its `variables` object. -/
structure Mutation where
  query : String
  vars : JSProps
  deriving DecidableEq

/-- What the backend does with one POST: the request fails at the network
level, or a response arrives with the given body text. -/
inductive Reply where
  | networkError
  | body (text : String)
  deriving DecidableEq

/-- The runtime functions a handler calls on its input.  Neither
`Buffer.from(data, 'base64')` nor `toString('utf8')` throws on a string, so
their composition is a total function; `JSON.parse` throws (`none`) or returns
a value. -/
structure Runtime where
  base64ToUtf8 : String → String
  jsonParse : String → Option JSValue

/-- The runtime of Node.js. -/
def Runtime.node : Runtime where
  base64ToUtf8 := fun data => Utf8.decode (Base64.decode data)
  jsonParse := JSON.parse

/-- The operator `a || b` on two expressions that may throw (`none`): the
right operand is evaluated only when the left one is falsy. -/
def jsOr (a : Option JSValue) (b : Unit → Option JSValue) : Option JSValue :=
  match a with
  | none => none
  | some v => if v.toBoolean then some v else b ()

/-- Apply `f` to every element and its index, counted from `start`:
`Array.prototype.map`, whose callback here also receives the backend's reply
to the element's request. -/
def mapFrom {α β : Type} (f : Nat → α → β) : Nat → List α → List β
  | _, [] => []
  | start, a :: rest => f start a :: mapFrom f (start + 1) rest

/-- The values of a list of settled promises, when every one was fulfilled. -/
def collect {α : Type} : List (Option α) → Option (List α)
  | [] => some []
  | none :: _ => none
  | some v :: rest => (collect rest).map (fun vs => v :: vs)

/-- The resolve-element step of `Promise.all`: when the promise with index `i`
is fulfilled, its value is written into slot `i` of the result array. -/
def resolveElement {α : Type} (promises : List (Option α)) (values : List (Option α))
    (i : Nat) : List (Option α) :=
  match promises[i]? with
  | some (some v) => values.set i (some v)
  | _ => values

/-- `Promise.all`: the result array has one slot per promise; as the promises
settle, in the order `order` of their indices, each fulfilled one writes its
value into its own slot, and the array is handed over once every slot is
filled.  A promise that never settles (`none`) leaves its slot empty, and then
`Promise.all` never resolves (`none`). -/
def promiseAll {α : Type} (order : List Nat) (promises : List (Option α)) : Option (List α) :=
  collect (order.foldl (resolveElement promises) (List.replicate promises.length none))

/-! ## `activeuser-appsync-function/index.js` -/

namespace ActiveUser

/-- The header of the mutation document. -/
def query : String := "mutation UpdateActiveUsers($count: Int!)"

/-- The expression `jsonData.USER_COUNT || jsonData.count || 1`. -/
def activeUserCount (jsonData : JSValue) : Option JSValue :=
  jsOr (jsOr (jsonData.getProp "USER_COUNT") (fun _ => jsonData.getProp "count"))
    (fun _ => some JSValue.one)

/-- What processing one record did: the request it sent, if any, and the value
its promise was fulfilled with; `settled = none` when an exception was thrown
outside every `try`, so that the promise never settles and the invocation
dies with the uncaught exception. -/
structure Run where
  dispatched : Option Mutation
  settled : Option RecordOutcome
  deriving DecidableEq

/-- The function `processRecord`.  The whole body is in `try`: `JSON.parse` of
the payload, the property reads, the awaited request (a request error rejects
the promise) and the read of `result.errors` all end in the `catch`, which
returns `ProcessingFailed`.  The `JSON.parse(data)` of the response body runs
inside the `'end'` listener, not in the `try` and not turned into `reject`. -/
def processRecord (rt : Runtime) (reply : Reply) (record : StreamRecord) : Run :=
  match rt.jsonParse (rt.base64ToUtf8 record.data) with
  | none => ⟨none, some (RecordOutcome.failed record)⟩
  | some jsonData =>
    match activeUserCount jsonData with
    | none => ⟨none, some (RecordOutcome.failed record)⟩
    | some count =>
      let mutation : Mutation := ⟨query, JSProps.cons "count" count JSProps.nil⟩
      match reply with
      | Reply.networkError => ⟨some mutation, some (RecordOutcome.failed record)⟩
      | Reply.body text =>
        match rt.jsonParse text with
        | none => ⟨some mutation, none⟩
        | some result =>
          match result.getProp "errors" with
          | none => ⟨some mutation, some (RecordOutcome.failed record)⟩
          | some errors =>
            if errors.toBoolean then ⟨some mutation, some (RecordOutcome.failed record)⟩
            else ⟨some mutation, some (RecordOutcome.ok record)⟩

/-- One invocation: the requests sent and the `records` of the response, if
the handler returns one. -/
structure Invocation where
  dispatched : List Mutation
  response : Option (List RecordOutcome)
  deriving DecidableEq

/-- The handler `exports.handler`:
`{ records: await Promise.all(event.records.map(processRecord)) }`, where
`replies i` is the backend's reply to the request of the record at index `i`
and `order` the order in which the promises settle. -/
def handler (rt : Runtime) (replies : Nat → Reply) (order : List Nat)
    (records : List StreamRecord) : Invocation :=
  let runs := mapFrom (fun i record => processRecord rt (replies i) record) 0 records
  ⟨runs.filterMap (fun run => run.dispatched), promiseAll order (runs.map (fun run => run.settled))⟩

end ActiveUser

/-- What the `map` callback of a callback-style handler did for one record:
the outcome it returned and the request it sent without waiting for it. -/
structure SyncRun where
  outcome : RecordOutcome
  dispatched : Option Mutation
  deriving DecidableEq

/-- One invocation of a callback-style handler: the `records` passed to
`callback(null, _)`, the requests sent, the two counters as the
"Processing completed" line prints them, and the counters once every request
has settled. -/
structure CallbackRun where
  records : List RecordOutcome
  dispatched : List Mutation
  successLogged : Nat
  failureLogged : Nat
  successFinal : Nat
  failureFinal : Nat
  deriving DecidableEq

/-- Assemble an invocation from the per-record runs; `succeeded i` tells
whether the promise chain of the request of record `i` ends in `success++`. -/
def CallbackRun.assemble (succeeded : Nat → Bool) (runs : List SyncRun) : CallbackRun :=
  let caught := (runs.filter (fun run => run.dispatched.isNone)).length
  let settled := mapFrom (fun i (run : SyncRun) => (run.dispatched.isSome, succeeded i)) 0 runs
  { records := runs.map (fun run => run.outcome)
    dispatched := runs.filterMap (fun run => run.dispatched)
    successLogged := 0
    failureLogged := caught
    successFinal := (settled.filter (fun p => p.1 && p.2)).length
    failureFinal := caught + (settled.filter (fun p => p.1 && !p.2)).length }

/-! ## `recentvideoview-appsync-function/index.js` -/

namespace RecentVideoView

/-- The header of the mutation document. -/
def query : String := "mutation UpdateVideo($id: ID!, $recent_views: Int)"

/-- The expression `jsonData.VIDEOID || jsonData.video_id || 'unknown'`. -/
def videoId (jsonData : JSValue) : Option JSValue :=
  jsOr (jsOr (jsonData.getProp "VIDEOID") (fun _ => jsonData.getProp "video_id"))
    (fun _ => some (JSValue.str "unknown"))

/-- The expression `jsonData.VIEWS || jsonData.recent_views || 1`. -/
def recentViews (jsonData : JSValue) : Option JSValue :=
  jsOr (jsOr (jsonData.getProp "VIEWS") (fun _ => jsonData.getProp "recent_views"))
    (fun _ => some JSValue.one)

/-- The callback of `event.records.map`: decode, parse and read the fields in
`try`, send the request without awaiting it and return `Ok`; the `catch`
counts a failure and returns `ProcessingFailed`. -/
def processRecord (rt : Runtime) (record : StreamRecord) : SyncRun :=
  match rt.jsonParse (rt.base64ToUtf8 record.data) with
  | none => ⟨RecordOutcome.failed record, none⟩
  | some jsonData =>
    match videoId jsonData with
    | none => ⟨RecordOutcome.failed record, none⟩
    | some id =>
      match recentViews jsonData with
      | none => ⟨RecordOutcome.failed record, none⟩
      | some views =>
        ⟨RecordOutcome.ok record,
          some ⟨query, JSProps.cons "id" id (JSProps.cons "recent_views" views JSProps.nil)⟩⟩

/-- Whether the promise chain of a request ends in `success++`:
`res.json()` gave a value and `res.errors` is falsy; a rejected `fetch`, an
unparseable body, a `TypeError` on `res.errors` and a truthy `res.errors` all
end in `failure++`. -/
def succeeded (rt : Runtime) (reply : Reply) : Bool :=
  match reply with
  | Reply.networkError => false
  | Reply.body text =>
    match rt.jsonParse text with
    | none => false
    | some res =>
      match res.getProp "errors" with
      | none => false
      | some errors => !errors.toBoolean

/-- The handler `exports.handler`; `replies i` is the backend's reply to the
request of the record at index `i`. -/
def handler (rt : Runtime) (replies : Nat → Reply) (records : List StreamRecord) : CallbackRun :=
  CallbackRun.assemble (fun i => succeeded rt (replies i)) (records.map (processRecord rt))

end RecentVideoView

/-! ## `totalvideoview-appsync-function/index.js` -/

namespace TotalVideoView

/-- The header of the mutation document. -/
def query : String := "mutation UpdateVideo($id: ID!, $total_views: Int, $recent_views: Int)"

/-- The expression `data.video_id || data.id || 'unknown'`. -/
def videoId (data : JSValue) : Option JSValue :=
  jsOr (jsOr (data.getProp "video_id") (fun _ => data.getProp "id"))
    (fun _ => some (JSValue.str "unknown"))

/-- The expression `data.total_views || 1`. -/
def totalViews (data : JSValue) : Option JSValue :=
  jsOr (data.getProp "total_views") (fun _ => some JSValue.one)

/-- The expression `data.recent_views || 1`. -/
def recentViews (data : JSValue) : Option JSValue :=
  jsOr (data.getProp "recent_views") (fun _ => some JSValue.one)

/-- The callback of `event.records.map`: the payload is decoded before the
`try` (a total function on strings); `JSON.parse` and the property reads of
the `variables` literal are in the `try`, the request is sent without
awaiting it and `Ok` is returned; the `catch` counts a failure and returns
`ProcessingFailed`. -/
def processRecord (rt : Runtime) (record : StreamRecord) : SyncRun :=
  let payload := rt.base64ToUtf8 record.data
  match rt.jsonParse payload with
  | none => ⟨RecordOutcome.failed record, none⟩
  | some data =>
    match videoId data with
    | none => ⟨RecordOutcome.failed record, none⟩
    | some id =>
      match totalViews data with
      | none => ⟨RecordOutcome.failed record, none⟩
      | some total =>
        match recentViews data with
        | none => ⟨RecordOutcome.failed record, none⟩
        | some recent =>
          ⟨RecordOutcome.ok record,
            some ⟨query, JSProps.cons "id" id (JSProps.cons "total_views" total
              (JSProps.cons "recent_views" recent JSProps.nil))⟩⟩

/-- Whether the promise chain of a request ends in `success++`:
`response.json()` gave a value; a rejected `fetch` and an unparseable body end
in `failure++`. -/
def succeeded (rt : Runtime) (reply : Reply) : Bool :=
  match reply with
  | Reply.networkError => false
  | Reply.body text => (rt.jsonParse text).isSome

/-- The handler `exports.handler`; `replies i` is the backend's reply to the
request of the record at index `i`. -/
def handler (rt : Runtime) (replies : Nat → Reply) (records : List StreamRecord) : CallbackRun :=
  CallbackRun.assemble (fun i => succeeded rt (replies i)) (records.map (processRecord rt))

end TotalVideoView

/-! ## `web/player-update/real-time-analytics.js`: the client view tracker -/

namespace Tracker

/-- The pieces of `text.split(sep)` for a one-character separator: always at
least one piece. -/
def split (sep : Char) : List Char → List (List Char)
  | [] => [[]]
  | c :: cs =>
    if c = sep then [] :: split sep cs
    else
      match split sep cs with
      | piece :: pieces => (c :: piece) :: pieces
      | [] => [[c]]

/-- The expression `url.split('/').pop().split('?')[0]`. -/
def filename (url : String) : List Char :=
  ((split '?' ((split '/' url.toList).getLast?.getD [])).head?).getD []

/-- The function `getVideoId`; `url = none` is a missing (`undefined` or
`null`) argument, and the match of `/^(\d+)/` is the longest run of ASCII
digits at the start of the file name, if it is not empty. -/
def getVideoId (url : Option String) : Option String :=
  match url with
  | none => none
  | some u =>
    if u = "" then none
    else
      let digits := (filename u).takeWhile Char.isDigit
      if digits.isEmpty then none else some (String.mk digits)

/-- The fields of a `<video>` element the tracker reads. -/
structure Video where
  paused : Bool
  currentSrc : String
  currentTime : ℚ

/-- The mutation `updateVideo(id: "<id>", total_views: _, recent_views: _)`
that `trackView` posts. -/
structure ViewIncrement where
  id : String
  totalViews : Nat
  recentViews : Nat
  deriving DecidableEq

/-- The module state of the tracker, with the trace of what it did:
`tracking` is the in-flight `Set`, `tracked` the `Map` of last tracking
attempts, `pending` the requests that have not settled yet, `timers` the
`setTimeout` callbacks not yet run with the time they are due, `calls` the
arguments of the calls of `trackView` and `dispatched` the mutations posted. -/
structure State where
  tracking : List String
  tracked : String → Option Int
  pending : List String
  timers : List (String × Int)
  calls : List String
  dispatched : List ViewIncrement

/-- The state when the script is loaded. -/
def State.initial : State := ⟨[], fun _ => none, [], [], [], []⟩

/-- The function `trackView` up to its first `await`: nothing happens when
the id is in the in-flight set; otherwise the id is added and the mutation is
posted. -/
def trackView (s : State) (videoId : String) : State :=
  let s1 := { s with calls := s.calls ++ [videoId] }
  if videoId ∈ s1.tracking then s1
  else
    { s1 with
      tracking := s1.tracking ++ [videoId]
      pending := s1.pending ++ [videoId]
      dispatched := s1.dispatched ++ [⟨videoId, 1, 1⟩] }

/-- The expression `tracked.get(videoId) || 0`. -/
def lastTracked (s : State) (videoId : String) : Int :=
  match s.tracked videoId with
  | none => 0
  | some t => if t ≠ 0 then t else 0

/-- The body of `videos.forEach` in `startTracking`, for one element and the
value `now` that `Date.now()` returns for it. -/
def visit (s : State) (now : Int) (video : Video) : State :=
  if video.paused || video.currentSrc = "" || video.currentTime < 1 then s
  else
    match getVideoId (some video.currentSrc) with
    | none => s
    | some videoId =>
      if videoId = "" then s
      else if now - lastTracked s videoId > 45000 then
        trackView { s with tracked := fun k => if k = videoId then some now else s.tracked k }
          videoId
      else s

/-- One run of the `setInterval` callback over the elements of the page, each
with the clock value read for it. -/
def tick (s : State) (readings : List (Int × Video)) : State :=
  readings.foldl (fun st r => visit st r.1 r.2) s

/-- The rest of `trackView` once the awaited request has settled, whether it
returned data, returned GraphQL errors or threw: the `finally` block sets a
timer of 5000 ms. -/
def settle (s : State) (now : Int) (videoId : String) : State :=
  if videoId ∈ s.pending then
    { s with pending := s.pending.erase videoId, timers := s.timers ++ [(videoId, now + 5000)] }
  else s

/-- The timer callback `() => tracking.delete(videoId)`, run at `now` when a
timer for the id is due. -/
def timeout (s : State) (now : Int) (videoId : String) : State :=
  match s.timers.find? (fun t => t.1 = videoId && decide (t.2 ≤ now)) with
  | some t => { s with timers := s.timers.erase t, tracking := s.tracking.filter (fun k => k ≠ videoId) }
  | none => s

/-- What the event loop runs next. -/
inductive Event where
  | tick (readings : List (Int × Video))
  | settle (now : Int) (videoId : String)
  | timeout (now : Int) (videoId : String)

/-- Run one event. -/
def step (s : State) : Event → State
  | Event.tick readings => tick s readings
  | Event.settle now videoId => settle s now videoId
  | Event.timeout now videoId => timeout s now videoId

/-- Run a sequence of events. -/
def run (s : State) (events : List Event) : State :=
  events.foldl step s

end Tracker

/-! ## The three stream handlers side by side -/

/-- The three handlers that answer the stream host. -/
inductive StreamHandler where
  | activeuser
  | recentvideoview
  | totalvideoview
  deriving DecidableEq

/-- The `records` a handler answers the stream host with, if it answers: the
value the promise of the `async` handler resolves with, or the value handed to
`callback(null, _)`. -/
def StreamHandler.response (h : StreamHandler) (rt : Runtime) (replies : Nat → Reply)
    (order : List Nat) (records : List StreamRecord) : Option (List RecordOutcome) :=
  match h with
  | StreamHandler.activeuser => (ActiveUser.handler rt replies order records).response
  | StreamHandler.recentvideoview => some (RecentVideoView.handler rt replies records).records
  | StreamHandler.totalvideoview => some (TotalVideoView.handler rt replies records).records

/-- The requests a handler sends for a batch. -/
def StreamHandler.dispatched (h : StreamHandler) (rt : Runtime) (replies : Nat → Reply)
    (order : List Nat) (records : List StreamRecord) : List Mutation :=
  match h with
  | StreamHandler.activeuser => (ActiveUser.handler rt replies order records).dispatched
  | StreamHandler.recentvideoview => (RecentVideoView.handler rt replies records).dispatched
  | StreamHandler.totalvideoview => (TotalVideoView.handler rt replies records).dispatched

/-- An outcome answers a record: it echoes the record's id and data and its
result is one of the two words of the contract. -/
def Answers (record : StreamRecord) (outcome : RecordOutcome) : Prop :=
  outcome.recordId = record.recordId ∧ outcome.data = record.data ∧
    (outcome.result = "Ok" ∨ outcome.result = "ProcessingFailed")

instance (record : StreamRecord) (outcome : RecordOutcome) : Decidable (Answers record outcome) :=
  inferInstanceAs (Decidable (outcome.recordId = record.recordId ∧ outcome.data = record.data ∧
    (outcome.result = "Ok" ∨ outcome.result = "ProcessingFailed")))

/-- The property reads of a handler do not throw on the parsed payload: it is
neither `null` nor `undefined`. -/
def JSValue.readable : JSValue → Bool
  | JSValue.undefined => false
  | JSValue.null => false
  | _ => true

/-- The payload of a record decodes: `JSON.parse` of the decoded text returns a
value whose properties can be read. -/
def Runtime.decodes (rt : Runtime) (record : StreamRecord) : Bool :=
  match rt.jsonParse (rt.base64ToUtf8 record.data) with
  | some jsonData => jsonData.readable
  | none => false

/-- The reply is a body reporting GraphQL errors: it parses and its `errors`
property is truthy. -/
def Runtime.reportsErrors (rt : Runtime) (reply : Reply) : Bool :=
  match reply with
  | Reply.networkError => false
  | Reply.body text =>
    match rt.jsonParse text with
    | none => false
    | some result => result.readable && ((result.getProp "errors").getD JSValue.undefined).toBoolean

/-- The reply is a successful response: a body that parses to a value without
a truthy `errors` property. -/
def Runtime.succeeds (rt : Runtime) (reply : Reply) : Bool :=
  match reply with
  | Reply.networkError => false
  | Reply.body text =>
    match rt.jsonParse text with
    | none => false
    | some result =>
      result.readable && !((result.getProp "errors").getD JSValue.undefined).toBoolean

/-- The replies to a batch from which the record at index `p` was taken out. -/
def skipReply (p : Nat) (replies : Nat → Reply) : Nat → Reply :=
  fun i => if i < p then replies i else replies (i + 1)

/-! ## Sample inputs -/

namespace Sample

/-- The base64 text of `{"VIDEOID":"42","VIEWS":5}`. -/
def viewsPayload : String := "eyJWSURFT0lEIjoiNDIiLCJWSUVXUyI6NX0="

/-- The base64 text of `{}`. -/
def emptyObjectPayload : String := "e30="

/-- The base64 text of `{}` behind a character that is not in the alphabet. -/
def strayCharacterPayload : String := "!e30="

/-- The base64 text of `5`. -/
def numberPayload : String := "NQ=="

/-- The base64 text of `null`. -/
def nullPayload : String := "bnVsbA=="

/-- A successful response body. -/
def dataBody : String := "\x7b\"data\":\x7b\"updateVideo\":\x7b\"id\":\"42\"\x7d\x7d\x7d"

/-- A response body reporting GraphQL errors. -/
def errorsBody : String := "\x7b\"data\":null,\"errors\":[\x7b\"message\":\"denied\"\x7d]\x7d"

/-- A response body that is not JSON. -/
def htmlBody : String := "<html>502 Bad Gateway</html>"

end Sample

/-- Ordered alias lookup with the truthiness test of `||`: the value of the
first key of the list that the object has with a truthy value, and the
default when there is none. -/
def firstTruthy (props : JSProps) : List String → JSValue → JSValue
  | [], dflt => dflt
  | key :: keys, dflt =>
    match props.lookup key with
    | some v => if v.toBoolean then v else firstTruthy props keys dflt
    | none => firstTruthy props keys dflt

/-- The payload `{"VIEWS":0}`. -/
def Sample.zeroViews : JSValue :=
  JSValue.obj (JSProps.cons "VIEWS" (JSValue.num 0 0) JSProps.nil)

/-- The payload `{"VIEWS":0,"recent_views":7}`. -/
def Sample.zeroViewsWithAlias : JSValue :=
  JSValue.obj (JSProps.cons "VIEWS" (JSValue.num 0 0)
    (JSProps.cons "recent_views" (JSValue.num 7 0) JSProps.nil))

/-- The payload `{"VIDEOID":""}`. -/
def Sample.emptyVideoId : JSValue :=
  JSValue.obj (JSProps.cons "VIDEOID" (JSValue.str "") JSProps.nil)

/-- The payload `{"VIDEOID":"42","VIEWS":5}`. -/
def Sample.views : JSValue :=
  JSValue.obj (JSProps.cons "VIDEOID" (JSValue.str "42")
    (JSProps.cons "VIEWS" (JSValue.num 5 0) JSProps.nil))

/-- The payload `{"id":"9"}`. -/
def Sample.idOnly : JSValue :=
  JSValue.obj (JSProps.cons "id" (JSValue.str "9") JSProps.nil)

/-- A value is the result of the ordered alias lookup: it is the truthy value of
a key of the list before which every key is absent or holds a falsy value, or
it is the default and every key of the list is absent or holds a falsy value. -/
def IsFirstTruthy (props : JSProps) (keys : List String) (dflt r : JSValue) : Prop :=
  (∃ before key after, keys = before ++ key :: after ∧ props.lookup key = some r ∧
      r.toBoolean = true ∧
      ∀ k, k ∈ before → ∀ v, props.lookup k = some v → v.toBoolean = false) ∨
    ((∀ k, k ∈ keys → ∀ v, props.lookup k = some v → v.toBoolean = false) ∧ r = dflt)

/-- The value is a number, a string, a boolean or an array: valid JSON whose
top-level value is neither an object nor `null`. -/
def JSValue.isScalarOrArray : JSValue → Bool
  | JSValue.bool _ => true
  | JSValue.num _ _ => true
  | JSValue.str _ => true
  | JSValue.arr _ => true
  | _ => false

/-- A segment is the last of the pieces a text falls into at a separator: it
holds no separator and the text before it is empty or ends with one. -/
def IsLastSegment (sep : Char) (text seg : List Char) : Prop :=
  sep ∉ seg ∧ ∃ before, text = before ++ seg ∧ (before = [] ∨ before.getLast? = some sep)

/-- A prefix of a text is the maximal one of characters satisfying `p`: all
its characters satisfy `p` and what follows it is empty or starts with a
character that does not. -/
def IsMaximalPrefix (p : Char → Bool) (text pre : List Char) : Prop :=
  (∀ c, c ∈ pre → p c = true) ∧
    ∃ rest, text = pre ++ rest ∧ ∀ c, rest.head? = some c → p c = false

namespace Tracker

/-- The element is eligible for tracking under the given id: it is playing,
its playback time is at least one second and its source gives the id. -/
def Video.eligibleFor (video : Video) (videoId : String) : Prop :=
  video.paused = false ∧ 1 ≤ video.currentTime ∧
    getVideoId (some video.currentSrc) = some videoId

instance (video : Video) (videoId : String) : Decidable (video.eligibleFor videoId) :=
  inferInstanceAs (Decidable (video.paused = false ∧ 1 ≤ video.currentTime ∧
    getVideoId (some video.currentSrc) = some videoId))

/-- The number of view-increment mutations posted for an id so far. -/
def State.sent (s : State) (videoId : String) : Nat :=
  s.dispatched.countP (fun m => m.id = videoId)

/-- The number of calls of `trackView` with an id so far. -/
def State.attempts (s : State) (videoId : String) : Nat :=
  s.calls.count videoId

/-- Every clock value an event reads lies between `lo` and `hi`. -/
def Event.readsWithin (lo hi : Int) : Event → Prop
  | Event.tick readings => ∀ r, r ∈ readings → lo ≤ r.1 ∧ r.1 ≤ hi
  | Event.settle _ _ => True
  | Event.timeout _ _ => True

instance (lo hi : Int) (e : Event) : Decidable (e.readsWithin lo hi) :=
  match e with
  | Event.tick readings =>
    inferInstanceAs (Decidable (∀ r, r ∈ readings → lo ≤ r.1 ∧ r.1 ≤ hi))
  | Event.settle _ _ => isTrue trivial
  | Event.timeout _ _ => isTrue trivial

/-- A playing element whose source is the video `42`. -/
def Sample.playing : Video := ⟨false, "https://cdn.example.com/videos/42.mp4", 3⟩

end Tracker

/-! ## `count-active-sessions/index.js`: the session counter aggregator -/

namespace CountActiveSessions

/-- What `dynamodb.send(new ScanCommand(_))` does: it throws an error with a
message, or returns a result whose `Items` is a list or is absent. -/
inductive ScanOutcome where
  | failed (message : String)
  | returned (items : Option (List JSValue))
  deriving DecidableEq

/-- What `dynamodb.send(new PutCommand(_))` does: it throws an error with a
message, or stores the item. -/
inductive PutOutcome where
  | failed (message : String)
  | stored
  deriving DecidableEq

/-- The value the handler returns: the status code and the object that is
serialised into `body`. -/
structure Response where
  statusCode : Nat
  body : JSProps
  deriving DecidableEq

/-- One invocation: the items sent to `mediaqos-ActiveUserTable` with a
`PutCommand`, and the value returned. -/
structure Invocation where
  puts : List JSProps
  response : Response
  deriving DecidableEq

/-- The expression `result.Items ? result.Items.length : 0`; an array, also an
empty one, is truthy. -/
def activeCount (items : Option (List JSValue)) : Nat :=
  match items with
  | some list => list.length
  | none => 0

/-- The object literal `{ id: 'current', count: activeCount, timestamp: Date.now() }`. -/
def counterItem (count : Nat) (now : Int) : JSProps :=
  JSProps.cons "id" (JSValue.str "current")
    (JSProps.cons "count" (JSValue.num count 0)
      (JSProps.cons "timestamp" (JSValue.num now 0) JSProps.nil))

/-- The handler `exports.handler`: scan, count, put, answer 200; the `catch`
around all of it answers 500 with the message of the error.  `putClock` and
`bodyClock` are the values of the two calls of `Date.now()`. -/
def handler (scan : ScanOutcome) (put : JSProps → PutOutcome) (putClock bodyClock : Int) :
    Invocation :=
  match scan with
  | ScanOutcome.failed message =>
    ⟨[], ⟨500, JSProps.cons "error" (JSValue.str message) JSProps.nil⟩⟩
  | ScanOutcome.returned items =>
    let item := counterItem (activeCount items) putClock
    match put item with
    | PutOutcome.failed message =>
      ⟨[item], ⟨500, JSProps.cons "error" (JSValue.str message) JSProps.nil⟩⟩
    | PutOutcome.stored =>
      ⟨[item], ⟨200, JSProps.cons "activeUsers" (JSValue.num (activeCount items) 0)
        (JSProps.cons "timestamp" (JSValue.num bodyClock 0) JSProps.nil)⟩⟩

end CountActiveSessions

namespace Tracker

/-- What the rest of `trackView` prints once the awaited request is over:
`Error:` for a body with truthy `errors`, `Views:` for a body with
`data.updateVideo`, nothing for another body, and `Exception:` from the
`catch` when `fetch` or `response.json()` rejects or a property read throws. -/
def consoleLine (rt : Runtime) (reply : Reply) : Option String :=
  match reply with
  | Reply.networkError => some "Exception:"
  | Reply.body text =>
    match rt.jsonParse text with
    | none => some "Exception:"
    | some data =>
      match data.getProp "errors" with
      | none => some "Exception:"
      | some errors =>
        if errors.toBoolean then some "Error:"
        else
          match data.getProp "data" with
          | none => some "Exception:"
          | some inner =>
            if inner.readable then
              match inner.getProp "updateVideo" with
              | some updated => if updated.toBoolean then some "Views:" else none
              | none => none
            else none

/-- The rest of `trackView` after the request of `videoId` is over at `now`
with the given reply: the `try` or the `catch` prints its line, and the
`finally` block runs in every case. -/
def finish (rt : Runtime) (reply : Reply) (s : State) (now : Int) (videoId : String) :
    Option String × State :=
  (consoleLine rt reply, settle s now videoId)

/-- A state the tracker can be in: the state after some sequence of events
from the state at load. -/
def Reachable (s : State) : Prop :=
  ∃ events, s = run State.initial events

/-- The in-flight requests and the timers agree with the guard set: no id has
two requests in flight, an id with a request in flight is in the guard set,
and an id with a timer is in the guard set, has no request in flight and has
one timer only. -/
def State.Coherent (s : State) : Prop :=
  s.pending.Nodup ∧ (∀ k, k ∈ s.pending → k ∈ s.tracking) ∧
    (∀ t, t ∈ s.timers → t.1 ∈ s.tracking ∧ t.1 ∉ s.pending) ∧
    (s.timers.map Prod.fst).Nodup

end Tracker

/-! ## `web/player-update/analytics-dashboard.js`: the dashboard renderer -/

namespace Dashboard

/-- The instance state of `AnalyticsDashboard`. -/
structure AnalyticsDashboard where
  videoIds : List String

/-- The constructor: the four fixed video ids. -/
def AnalyticsDashboard.new : AnalyticsDashboard :=
  ⟨["4990233", "6963744", "7140928", "3129957"]⟩

/-- The value `await (await fetch(_)).json()` of one request; `none` when
`fetch` rejects or the body is not JSON, which rejects the `Promise.all` the
request is part of. -/
def jsonOf (rt : Runtime) (reply : Reply) : Option JSValue :=
  match reply with
  | Reply.networkError => none
  | Reply.body text => rt.jsonParse text

/-- The expression `v.data?.getVideo`: `none` is the `TypeError` of reading
`data` from `null` or `undefined`; a `data` that is `null` or `undefined`
gives `undefined`. -/
def getVideo (v : JSValue) : Option JSValue :=
  match v.getProp "data" with
  | none => none
  | some inner => if inner.readable then inner.getProp "getVideo" else some JSValue.undefined

/-- The number `video.total_views` converts to in the comparator
`(a, b) => b.total_views - a.total_views`; `none` is the `TypeError` of a
`total_views` that has no primitive. -/
def totalViews (video : JSValue) : Option JSNumber :=
  match video.getProp "total_views" with
  | some views => views.toNumber
  | none => none

/-- The comparator does not ask for `b` before `a`: the value of
`b.total_views - a.total_views`, with `NaN` read as `+0` as `SortCompare` does,
is not positive. -/
def keepsOrder (a b : JSValue) : Bool :=
  match totalViews a, totalViews b with
  | some ka, some kb => decide (JSNumber.subSign kb ka ≤ 0)
  | _, _ => true

/-- The comparator orders the elements of the list consistently: with `NaN`
read as `+0` it is transitive on them. -/
def consistentOn (videos : List JSValue) : Bool :=
  videos.all (fun a => videos.all (fun b => videos.all (fun c =>
    !keepsOrder a b || !keepsOrder b c || keepsOrder a c)))

/-- What the call of `sort` does: it throws, it returns the array in the order
ECMAScript fixes, or the order is left to the implementation. -/
inductive Sorted where
  | threw
  | inOrder (videos : List JSValue)
  | implementationDefined
  deriving DecidableEq

/-- The call `.sort((a, b) => b.total_views - a.total_views)`.  On fewer than
two elements the comparator is not called and the array is returned as it is.
On two or more every element is compared at least once, so a `total_views`
without a primitive makes the comparator, and the sort, throw.  When the
comparator orders the elements consistently the result is the stable sort
that keeps `a` before `b` unless `b.total_views - a.total_views` is positive:
every engine returns it.  Otherwise (some `total_views` converts to `NaN`
beside two that differ) the order depends on the comparisons the engine
makes, and the script runs in whatever browser loads the page. -/
def sortByTotalViews (videos : List JSValue) : Sorted :=
  if videos.length ≤ 1 then Sorted.inOrder videos
  else if videos.any (fun video => (totalViews video).isNone) then Sorted.threw
  else if consistentOn videos then
    Sorted.inOrder (videos.insertionSort (fun a b => keepsOrder a b = true))
  else Sorted.implementationDefined

/-- `ToString` of an interpolated expression returns: the expression does not
throw and its value has a primitive. -/
def stringifies (value : Option JSValue) : Bool :=
  match value with
  | some v => v.primitivable
  | none => false

/-- The template of one video: it interpolates `video.id`,
`video.total_views || 0` and `video.recent_views || 0`; the value tells
whether the three conversions to a string return. -/
def renders (video : JSValue) : Bool :=
  stringifies (video.getProp "id")
    && stringifies (jsOr (video.getProp "total_views") (fun _ => some (JSValue.num 0 0)))
    && stringifies (jsOr (video.getProp "recent_views") (fun _ => some (JSValue.num 0 0)))

/-- What one run of `updatePopularVideos` does: it is abandoned in the `catch`
with nothing rendered and `updateMetrics` not called, or it completes with
the list written into `popular-videos-display` (`none` when the container is
left as it was) and the list passed to `updateMetrics`. -/
inductive Update where
  | abandoned
  | completed (rendered : Option (List JSValue)) (metrics : List JSValue)
  deriving DecidableEq

/-- The method `updatePopularVideos`: one request per video id, answered by
`backend`; `container` tells whether `popular-videos-display` exists.  The
two `Promise.all` reject when any request fails or any body is not JSON,
`v.data?.getVideo` throws on a `null` body, the comparator of the sort and
the template of the rendering throw on a value without a primitive: the
`catch` ends the run.  The results are filtered by truthiness and sorted; the
list is written into the container when there is one and the list is not
empty, and passed to `updateMetrics`.  The value is `none` when the order of
the sort is implementation-defined. -/
def updatePopularVideos (rt : Runtime) (dashboard : AnalyticsDashboard) (container : Bool)
    (backend : String → Reply) : Option Update :=
  match collect (dashboard.videoIds.map (fun id => jsonOf rt (backend id))) with
  | none => some Update.abandoned
  | some videos =>
    match collect (videos.map getVideo) with
    | none => some Update.abandoned
    | some results =>
      match sortByTotalViews (results.filter JSValue.toBoolean) with
      | Sorted.threw => some Update.abandoned
      | Sorted.implementationDefined => none
      | Sorted.inOrder videoData =>
        if container && !videoData.isEmpty then
          if videoData.all renders then some (Update.completed (some videoData) videoData)
          else some Update.abandoned
        else some (Update.completed none videoData)

/-- The `total_views` of the video converts to a number other than `NaN`. -/
def hasViewCount (video : JSValue) : Bool :=
  match totalViews video with
  | some k => decide (k ≠ JSNumber.nan)
  | none => false

/-- The comparison `a.total_views >= b.total_views` of two videos. -/
def viewsAtLeast (a b : JSValue) : Bool :=
  match totalViews a, totalViews b with
  | some ka, some kb => ka.atLeast kb
  | _, _ => false

/-- The body of a response with the video `4990233` and 5 views. -/
def Sample.fiveViews : String :=
  "\x7b\"data\":\x7b\"getVideo\":\x7b\"id\":\"4990233\",\"total_views\":5,\"recent_views\":2\x7d\x7d\x7d"

/-- The body of a response with the video `6963744` and 9 views. -/
def Sample.nineViews : String :=
  "\x7b\"data\":\x7b\"getVideo\":\x7b\"id\":\"6963744\",\"total_views\":9,\"recent_views\":null\x7d\x7d\x7d"

/-- The body of a response with the video `7140928` and no `total_views` yet. -/
def Sample.nullViews : String :=
  "\x7b\"data\":\x7b\"getVideo\":\x7b\"id\":\"7140928\",\"total_views\":null,\"recent_views\":1\x7d\x7d\x7d"

/-- The body of a response without a video. -/
def Sample.noVideo : String := "\x7b\"data\":\x7b\"getVideo\":null\x7d\x7d"

/-- A backend that knows three of the four videos. -/
def Sample.backend : String → Reply := fun id =>
  if id = "4990233" then Reply.body Sample.fiveViews
  else if id = "6963744" then Reply.body Sample.nineViews
  else if id = "7140928" then Reply.body Sample.nullViews
  else Reply.body Sample.noVideo

/-- The same backend, except that the request for the video `3129957` is
answered with a body that is not JSON. -/
def Sample.brokenBackend : String → Reply := fun id =>
  if id = "3129957" then Reply.body "<html>502 Bad Gateway</html>" else Sample.backend id

/-- A body whose video has no `total_views`. -/
def Sample.unratedViews : String :=
  "\x7b\"data\":\x7b\"getVideo\":\x7b\"id\":\"4990233\",\"recent_views\":2\x7d\x7d\x7d"

/-- A backend that knows two videos, the first of them without `total_views`. -/
def Sample.unratedBackend : String → Reply := fun id =>
  if id = "4990233" then Reply.body Sample.unratedViews
  else if id = "6963744" then Reply.body Sample.nineViews
  else Reply.body Sample.noVideo

/-- A backend that knows one video only, and that without `total_views`. -/
def Sample.singleUnratedBackend : String → Reply := fun id =>
  if id = "4990233" then Reply.body Sample.unratedViews else Reply.body Sample.noVideo

/-- A body whose video has for `id` an object with an own property `toString`. -/
def Sample.unprintableId : String :=
  "\x7b\"data\":\x7b\"getVideo\":\x7b\"id\":\x7b\"toString\":null\x7d,\"total_views\":5,\"recent_views\":2\x7d\x7d\x7d"

/-- The backend `Sample.backend`, except that the video `4990233` comes with an
`id` that has no string. -/
def Sample.unprintableBackend : String → Reply := fun id =>
  if id = "4990233" then Reply.body Sample.unprintableId else Sample.backend id

/-- The body of a response with the video `id` and the `total_views` written
as the JSON text `views`. -/
def Sample.bodyWithViews (id views : String) : String :=
  "\x7b\"data\":\x7b\"getVideo\":\x7b\"id\":\"" ++ id ++ "\",\"total_views\":" ++ views
    ++ ",\"recent_views\":null\x7d\x7d\x7d"

/-- A backend whose videos have 1, 2.5 and 2 views, the last as a string. -/
def Sample.fractionBackend : String → Reply := fun id =>
  if id = "4990233" then Reply.body (Sample.bodyWithViews id "1")
  else if id = "6963744" then Reply.body (Sample.bodyWithViews id "2.5")
  else if id = "7140928" then Reply.body (Sample.bodyWithViews id "\"2\"")
  else Reply.body Sample.noVideo

/-- The object `{ id, total_views, recent_views }` of a response. -/
def Sample.video (id : String) (total recent : JSValue) : JSValue :=
  JSValue.obj (JSProps.cons "id" (JSValue.str id)
    (JSProps.cons "total_views" total (JSProps.cons "recent_views" recent JSProps.nil)))

end Dashboard

/-! # Theorems -/

/-! ## Lists, `map` with index and `Promise.all` -/

theorem collect_eq_some_iff {α : Type} (slots : List (Option α)) (vs : List α) :
    collect slots = some vs ↔ slots = vs.map some := by
  induction slots generalizing vs with
  | nil => cases vs <;> simp [collect]
  | cons slot rest ih =>
    cases slot with
    | none => cases vs <;> simp [collect]
    | some v =>
      cases vs with
      | nil => simp [collect]
      | cons w ws =>
        simp only [collect, Option.map_eq_some', List.map_cons, List.cons.injEq, Option.some.injEq]
        constructor
        · rintro ⟨us, hus, h1, h2⟩
          exact ⟨h1, h2 ▸ (ih us).mp hus⟩
        · rintro ⟨h1, h2⟩
          exact ⟨ws, (ih ws).mpr h2, h1, rfl⟩

theorem resolveElement_length {α : Type} (promises : List (Option α)) (order : List Nat)
    (values : List (Option α)) :
    (order.foldl (resolveElement promises) values).length = values.length := by
  induction order generalizing values with
  | nil => simp
  | cons j rest ih =>
    rw [List.foldl_cons, ih]
    unfold resolveElement
    split <;> simp

/-- The slots of `Promise.all` after the promises with index in `order` have
settled: the slot of a fulfilled promise whose index has come up holds its
value, and every other slot holds what it held before. -/
theorem resolveElement_slots {α : Type} (promises : List (Option α)) (order : List Nat)
    (values : List (Option α)) (i : Nat) :
    (order.foldl (resolveElement promises) values)[i]? =
      match promises[i]? with
      | some (some v) => if i ∈ order ∧ i < values.length then some (some v) else values[i]?
      | _ => values[i]? := by
  induction order generalizing values with
  | nil => split <;> simp
  | cons j rest ih =>
    rw [List.foldl_cons, ih]
    have hlen : (resolveElement promises values j).length = values.length := by
      unfold resolveElement; split <;> simp
    rw [hlen]
    by_cases hij : j = i
    · subst hij
      rcases hj : promises[j]? with _ | _ | v
      · simp [resolveElement, hj]
      · simp [resolveElement, hj]
      · by_cases hl : j < values.length
        · simp [resolveElement, hj, hl, List.getElem?_set]
        · simp [resolveElement, hj, hl, List.getElem?_set]
          omega
    · have hji : ¬ i = j := fun h => hij h.symm
      have hget : (resolveElement promises values j)[i]? = values[i]? := by
        unfold resolveElement
        split
        · simp [List.getElem?_set, hij]
        · rfl
      rw [hget]
      simp [hji]

/-- When `Promise.all` resolves, its array holds the value of every promise,
each at the index of its promise, whatever the order of settlement. -/
theorem promiseAll_eq_some {α : Type} (order : List Nat) (promises : List (Option α))
    (vs : List α) (h : promiseAll order promises = some vs) : promises = vs.map some := by
  unfold promiseAll at h
  rw [collect_eq_some_iff] at h
  apply List.ext_getElem?
  intro i
  have hslot := resolveElement_slots promises order (List.replicate promises.length none) i
  have hlen := resolveElement_length promises order (List.replicate promises.length none)
  rw [h] at hslot hlen
  simp only [List.length_map, List.length_replicate] at hlen
  by_cases hi : i < promises.length
  · have hi2 : i < vs.length := hlen ▸ hi
    rcases hp : promises[i]? with _ | _ | v
    · simp [List.getElem?_eq_some] at hp
      omega
    · rw [hp] at hslot
      simp [hi, hi2, List.getElem?_replicate] at hslot
    · rw [hp] at hslot
      simp only [List.length_replicate, hi, and_true, List.getElem?_replicate, if_true] at hslot
      split at hslot
      · exact hslot.symm
      · simp [hi2] at hslot
  · have hi2 : ¬ i < vs.length := hlen ▸ hi
    simp [List.getElem?_eq_none (Nat.le_of_not_lt hi), List.getElem?_eq_none (Nat.le_of_not_lt hi2)]

/-- When every promise settles, in whatever order, `Promise.all` resolves with
the values of the promises if all were fulfilled, and never otherwise. -/
theorem promiseAll_of_cover {α : Type} (order : List Nat) (promises : List (Option α))
    (hcover : ∀ i, i < promises.length → i ∈ order) :
    promiseAll order promises = collect promises := by
  unfold promiseAll
  congr 1
  apply List.ext_getElem?
  intro i
  rw [resolveElement_slots]
  by_cases hi : i < promises.length
  · rcases hp : promises[i]? with _ | _ | v
    · simp [List.getElem?_eq_some] at hp
      omega
    · simp [hi]
    · simp [hi, hcover i hi]
  · have hnone : promises[i]? = none := List.getElem?_eq_none (Nat.le_of_not_lt hi)
    simp [hnone, hi]
    omega

theorem mapFrom_length {α β : Type} (f : Nat → α → β) (start : Nat) (l : List α) :
    (mapFrom f start l).length = l.length := by
  induction l generalizing start with
  | nil => rfl
  | cons a rest ih => simp [mapFrom, ih]

theorem mapFrom_append {α β : Type} (f : Nat → α → β) (start : Nat) (l₁ l₂ : List α) :
    mapFrom f start (l₁ ++ l₂) = mapFrom f start l₁ ++ mapFrom f (start + l₁.length) l₂ := by
  induction l₁ generalizing start with
  | nil => simp [mapFrom]
  | cons a rest ih =>
    have harith : start + 1 + rest.length = start + (rest.length + 1) := by omega
    simp [mapFrom, ih, harith]

theorem mapFrom_getElem? {α β : Type} (f : Nat → α → β) (start : Nat) (l : List α) (i : Nat) :
    (mapFrom f start l)[i]? = l[i]?.map (f (start + i)) := by
  induction l generalizing start i with
  | nil => simp [mapFrom]
  | cons a rest ih =>
    cases i with
    | zero => simp [mapFrom]
    | succ i =>
      have harith : start + 1 + i = start + (i + 1) := by omega
      simp [mapFrom, ih, harith]

theorem map_mapFrom {α β γ : Type} (g : β → γ) (f : Nat → α → β) (start : Nat) (l : List α) :
    (mapFrom f start l).map g = mapFrom (fun i a => g (f i a)) start l := by
  induction l generalizing start with
  | nil => rfl
  | cons a rest ih => simp [mapFrom, ih]

theorem mapFrom_congr {α β : Type} (f g : Nat → α → β) (start : Nat) (l : List α)
    (h : ∀ i, i < l.length → ∀ a, f (start + i) a = g (start + i) a) :
    mapFrom f start l = mapFrom g start l := by
  induction l generalizing start with
  | nil => rfl
  | cons a rest ih =>
    simp only [mapFrom, List.cons.injEq]
    refine ⟨by simpa using h 0 (by simp) a, ih (start + 1) ?_⟩
    intro i hi b
    have := h (i + 1) (by simpa using hi) b
    have harith : start + 1 + i = start + (i + 1) := by omega
    rw [harith]
    exact this

theorem mapFrom_const {α β : Type} (f : α → β) (start : Nat) (l : List α) :
    mapFrom (fun _ a => f a) start l = l.map f := by
  induction l generalizing start with
  | nil => rfl
  | cons a rest ih => simp [mapFrom, ih]

/-! ## Per-record facts -/

theorem activeuser_settled_cases (rt : Runtime) (reply : Reply) (record : StreamRecord) :
    (ActiveUser.processRecord rt reply record).settled = none ∨
      (ActiveUser.processRecord rt reply record).settled = some (RecordOutcome.ok record) ∨
      (ActiveUser.processRecord rt reply record).settled = some (RecordOutcome.failed record) := by
  unfold ActiveUser.processRecord
  repeat' split
  all_goals simp

theorem recent_outcome_cases (rt : Runtime) (record : StreamRecord) :
    (RecentVideoView.processRecord rt record).outcome = RecordOutcome.ok record ∨
      (RecentVideoView.processRecord rt record).outcome = RecordOutcome.failed record := by
  unfold RecentVideoView.processRecord
  repeat' split
  all_goals simp

theorem total_outcome_cases (rt : Runtime) (record : StreamRecord) :
    (TotalVideoView.processRecord rt record).outcome = RecordOutcome.ok record ∨
      (TotalVideoView.processRecord rt record).outcome = RecordOutcome.failed record := by
  unfold TotalVideoView.processRecord
  simp only
  repeat' split
  all_goals simp

theorem answers_ok (record : StreamRecord) : Answers record (RecordOutcome.ok record) :=
  ⟨rfl, rfl, Or.inl rfl⟩

theorem answers_failed (record : StreamRecord) : Answers record (RecordOutcome.failed record) :=
  ⟨rfl, rfl, Or.inr rfl⟩

theorem forall₂_mapFrom {α β : Type} (P : α → β → Prop) (f : Nat → α → β)
    (h : ∀ i a, P a (f i a)) (start : Nat) (l : List α) :
    List.Forall₂ P l (mapFrom f start l) := by
  induction l generalizing start with
  | nil => exact List.Forall₂.nil
  | cons a rest ih => exact List.Forall₂.cons (h start a) (ih (start + 1))

theorem forall₂_of_map_some {α β : Type} (R : α → β → Prop) (l : List α)
    (ps : List (Option β)) (vs : List β)
    (h : List.Forall₂ (fun a p => ∀ o, p = some o → R a o) l ps) (hps : ps = vs.map some) :
    List.Forall₂ R l vs := by
  subst hps
  induction vs generalizing l with
  | nil =>
    cases h
    exact List.Forall₂.nil
  | cons v vs ih =>
    cases h with
    | cons h1 h2 => exact List.Forall₂.cons (h1 v rfl) (ih _ h2)

/-- C1: whenever a stream handler returns, its `records` answer the input
records one for one and in order: same length, the same `recordId` and the
same `data` at every index, and a `result` that is `"Ok"` or
`"ProcessingFailed"`, for every order in which the requests complete. -/
theorem response_answers_records (h : StreamHandler) (rt : Runtime) (replies : Nat → Reply)
    (order : List Nat) (records : List StreamRecord) (resp : List RecordOutcome)
    (hret : h.response rt replies order records = some resp) :
    List.Forall₂ Answers records resp := by
  cases h with
  | activeuser =>
    simp only [StreamHandler.response, ActiveUser.handler] at hret
    have hps := promiseAll_eq_some _ _ _ hret
    rw [map_mapFrom] at hps
    refine forall₂_of_map_some Answers records _ resp ?_ hps
    apply forall₂_mapFrom
    intro i record o ho
    rcases activeuser_settled_cases rt (replies i) record with hc | hc | hc
    · rw [hc] at ho; cases ho
    · rw [hc] at ho; cases ho; exact answers_ok record
    · rw [hc] at ho; cases ho; exact answers_failed record
  | recentvideoview =>
    simp only [StreamHandler.response, RecentVideoView.handler, CallbackRun.assemble,
      Option.some.injEq, List.map_map] at hret
    subst hret
    rw [← mapFrom_const _ 0]
    apply forall₂_mapFrom
    intro _ record
    rcases recent_outcome_cases rt record with hc | hc
    · simp only [Function.comp]; rw [hc]; exact answers_ok record
    · simp only [Function.comp]; rw [hc]; exact answers_failed record
  | totalvideoview =>
    simp only [StreamHandler.response, TotalVideoView.handler, CallbackRun.assemble,
      Option.some.injEq, List.map_map] at hret
    subst hret
    rw [← mapFrom_const _ 0]
    apply forall₂_mapFrom
    intro _ record
    rcases total_outcome_cases rt record with hc | hc
    · simp only [Function.comp]; rw [hc]; exact answers_ok record
    · simp only [Function.comp]; rw [hc]; exact answers_failed record

theorem response_answers_records_witness :
    List.Forall₂ Answers
      [⟨"1", "eyJWSURFT0lEIjoiNDIiLCJWSUVXUyI6NX0="⟩, ⟨"2", "not-valid-base64!!"⟩]
      [⟨"1", "Ok", "eyJWSURFT0lEIjoiNDIiLCJWSUVXUyI6NX0="⟩,
        ⟨"2", "ProcessingFailed", "not-valid-base64!!"⟩] :=
  response_answers_records StreamHandler.activeuser Runtime.node
    (fun _ => Reply.body Sample.dataBody)
    [1, 0] [⟨"1", "eyJWSURFT0lEIjoiNDIiLCJWSUVXUyI6NX0="⟩, ⟨"2", "not-valid-base64!!"⟩] _
    (by decide)

theorem JSValue.getProp_of_readable (v : JSValue) (key : String) (h : v.readable = true) :
    ∃ w, v.getProp key = some w := by
  cases v <;> simp [JSValue.readable] at h <;> simp [JSValue.getProp]

theorem JSValue.readable_of_getProp (v : JSValue) (key : String) (w : JSValue)
    (h : v.getProp key = some w) : v.readable = true := by
  cases v <;> simp [JSValue.getProp] at h <;> rfl

theorem jsOr_some (a : JSValue) (b : Unit → Option JSValue) :
    jsOr (some a) b = if a.toBoolean then some a else b () := rfl

theorem jsOr_defined (a : Option JSValue) (b : Unit → Option JSValue)
    (ha : ∃ x, a = some x) (hb : ∃ y, b () = some y) : ∃ c, jsOr a b = some c := by
  obtain ⟨x, rfl⟩ := ha
  obtain ⟨y, hy⟩ := hb
  rw [jsOr_some]
  split
  · exact ⟨x, rfl⟩
  · exact ⟨y, hy⟩

theorem activeUserCount_of_readable (v : JSValue) (h : v.readable = true) :
    ∃ c, ActiveUser.activeUserCount v = some c := by
  unfold ActiveUser.activeUserCount
  exact jsOr_defined _ _
    (jsOr_defined _ _ (v.getProp_of_readable "USER_COUNT" h) (v.getProp_of_readable "count" h)) ⟨_, rfl⟩

theorem recent_videoId_of_readable (v : JSValue) (h : v.readable = true) :
    ∃ c, RecentVideoView.videoId v = some c := by
  unfold RecentVideoView.videoId
  exact jsOr_defined _ _
    (jsOr_defined _ _ (v.getProp_of_readable "VIDEOID" h) (v.getProp_of_readable "video_id" h)) ⟨_, rfl⟩

theorem recent_recentViews_of_readable (v : JSValue) (h : v.readable = true) :
    ∃ c, RecentVideoView.recentViews v = some c := by
  unfold RecentVideoView.recentViews
  exact jsOr_defined _ _
    (jsOr_defined _ _ (v.getProp_of_readable "VIEWS" h) (v.getProp_of_readable "recent_views" h)) ⟨_, rfl⟩

theorem total_videoId_of_readable (v : JSValue) (h : v.readable = true) :
    ∃ c, TotalVideoView.videoId v = some c := by
  unfold TotalVideoView.videoId
  exact jsOr_defined _ _
    (jsOr_defined _ _ (v.getProp_of_readable "video_id" h) (v.getProp_of_readable "id" h)) ⟨_, rfl⟩

theorem total_totalViews_of_readable (v : JSValue) (h : v.readable = true) :
    ∃ c, TotalVideoView.totalViews v = some c := by
  unfold TotalVideoView.totalViews
  exact jsOr_defined _ _ (v.getProp_of_readable "total_views" h) ⟨_, rfl⟩

theorem total_recentViews_of_readable (v : JSValue) (h : v.readable = true) :
    ∃ c, TotalVideoView.recentViews v = some c := by
  unfold TotalVideoView.recentViews
  exact jsOr_defined _ _ (v.getProp_of_readable "recent_views" h) ⟨_, rfl⟩

theorem recent_outcome_of_decodes (rt : Runtime) (record : StreamRecord)
    (h : rt.decodes record = true) :
    (RecentVideoView.processRecord rt record).outcome = RecordOutcome.ok record := by
  unfold Runtime.decodes at h
  unfold RecentVideoView.processRecord
  cases hp : rt.jsonParse (rt.base64ToUtf8 record.data) with
  | none => simp [hp] at h
  | some jsonData =>
    simp only [hp] at h
    obtain ⟨id, hid⟩ := recent_videoId_of_readable jsonData h
    obtain ⟨views, hviews⟩ := recent_recentViews_of_readable jsonData h
    simp [hid, hviews]

theorem total_outcome_of_decodes (rt : Runtime) (record : StreamRecord)
    (h : rt.decodes record = true) :
    (TotalVideoView.processRecord rt record).outcome = RecordOutcome.ok record := by
  unfold Runtime.decodes at h
  unfold TotalVideoView.processRecord
  simp only
  cases hp : rt.jsonParse (rt.base64ToUtf8 record.data) with
  | none => simp [hp] at h
  | some data =>
    simp only [hp] at h
    obtain ⟨id, hid⟩ := total_videoId_of_readable data h
    obtain ⟨total, htotal⟩ := total_totalViews_of_readable data h
    obtain ⟨recent, hrecent⟩ := total_recentViews_of_readable data h
    simp [hid, htotal, hrecent]

theorem activeuser_settled_of_decodes (rt : Runtime) (reply : Reply) (record : StreamRecord)
    (h : rt.decodes record = true)
    (hreply : rt.reportsErrors reply = true ∨ rt.succeeds reply = true) :
    (ActiveUser.processRecord rt reply record).settled =
      some (if rt.reportsErrors reply then RecordOutcome.failed record
        else RecordOutcome.ok record) := by
  unfold Runtime.decodes at h
  unfold ActiveUser.processRecord
  cases hp : rt.jsonParse (rt.base64ToUtf8 record.data) with
  | none => simp [hp] at h
  | some jsonData =>
    simp only [hp] at h
    obtain ⟨count, hcount⟩ := activeUserCount_of_readable jsonData h
    simp only [hcount]
    cases reply with
    | networkError => simp [Runtime.reportsErrors, Runtime.succeeds] at hreply
    | body text =>
      cases hb : rt.jsonParse text with
      | none => simp [Runtime.reportsErrors, Runtime.succeeds, hb] at hreply
      | some result =>
        simp only [Runtime.reportsErrors, Runtime.succeeds, hb, Bool.and_eq_true] at hreply ⊢
        have hread : result.readable = true := by
          rcases hreply with h1 | h1 <;> exact h1.1
        obtain ⟨errors, herrors⟩ := result.getProp_of_readable "errors" hread
        simp only [herrors, hread, Option.getD_some, Bool.true_and]
        split <;> simp [*]

theorem collect_map_some {α : Type} (vs : List α) : collect (vs.map some) = some vs :=
  (collect_eq_some_iff _ _).mpr rfl

/-- The only way a record of `activeuser` leaves its promise unsettled: a
request was sent and the body of the response is not JSON. -/
theorem activeuser_unsettled_only_if_unparseable (rt : Runtime) (reply : Reply)
    (record : StreamRecord) (h : (ActiveUser.processRecord rt reply record).settled = none) :
    (ActiveUser.processRecord rt reply record).dispatched ≠ none ∧
      ∃ text, reply = Reply.body text ∧ rt.jsonParse text = none := by
  unfold ActiveUser.processRecord at h ⊢
  cases hp : rt.jsonParse (rt.base64ToUtf8 record.data) with
  | none => simp [hp] at h
  | some jsonData =>
    simp only [hp] at h ⊢
    cases hc : ActiveUser.activeUserCount jsonData with
    | none => simp [hc] at h
    | some count =>
      simp only [hc] at h ⊢
      cases reply with
      | networkError => simp at h
      | body text =>
        cases hb : rt.jsonParse text with
        | none => simp [hb]
        | some result =>
          simp only [hb] at h
          split at h
          · simp at h
          · split at h <;> simp at h

/-- C2 (defect): the `activeuser` handler parses the response body inside the
`'end'` listener, outside its `try` and without `reject`: for a record whose
payload decodes and a response whose body is not JSON the exception is
uncaught and no response is returned, where the two other handlers answer
`Ok` for the same batch and the same reply. -/
theorem activeuser_unparseable_body_no_response :
    StreamHandler.activeuser.response Runtime.node (fun _ => Reply.body Sample.htmlBody) [0]
        [⟨"1", Sample.emptyObjectPayload⟩] = none ∧
      StreamHandler.recentvideoview.response Runtime.node (fun _ => Reply.body Sample.htmlBody)
        [0] [⟨"1", Sample.emptyObjectPayload⟩] = some [⟨"1", "Ok", Sample.emptyObjectPayload⟩] ∧
      StreamHandler.totalvideoview.response Runtime.node (fun _ => Reply.body Sample.htmlBody)
        [0] [⟨"1", Sample.emptyObjectPayload⟩] = some [⟨"1", "Ok", Sample.emptyObjectPayload⟩] := by
  decide

/-- C3 (as stated, refuted): in `recentvideoview` and `totalvideoview` a
record whose payload decodes and whose request is answered with a body
reporting GraphQL errors still has the result `Ok`. -/
theorem graphql_errors_not_marked_in_callback_handlers :
    Runtime.node.decodes ⟨"1", Sample.viewsPayload⟩ = true ∧
      Runtime.node.reportsErrors (Reply.body Sample.errorsBody) = true ∧
      (RecentVideoView.handler Runtime.node (fun _ => Reply.body Sample.errorsBody)
        [⟨"1", Sample.viewsPayload⟩]).records = [⟨"1", "Ok", Sample.viewsPayload⟩] ∧
      (TotalVideoView.handler Runtime.node (fun _ => Reply.body Sample.errorsBody)
        [⟨"1", Sample.viewsPayload⟩]).records = [⟨"1", "Ok", Sample.viewsPayload⟩] := by
  decide

/-- C3 (amended): for a batch of records whose payloads all decode and replies
that are each a successful response or a body reporting GraphQL errors, the
`activeuser` handler returns, for every order of completion, one outcome per
record in the original order, `ProcessingFailed` exactly at the indices whose
reply reports errors and `Ok` at the others; `recentvideoview` and
`totalvideoview` return `Ok` for every record whatever the replies. -/
theorem graphql_errors_mark_activeuser_records (rt : Runtime) (replies : Nat → Reply)
    (order : List Nat) (records : List StreamRecord)
    (hcover : ∀ i, i < records.length → i ∈ order)
    (hdecodes : ∀ record, record ∈ records → rt.decodes record = true)
    (hreplies : ∀ i, i < records.length →
      rt.reportsErrors (replies i) = true ∨ rt.succeeds (replies i) = true) :
    (ActiveUser.handler rt replies order records).response =
        some (mapFrom (fun i record =>
          if rt.reportsErrors (replies i) then RecordOutcome.failed record
          else RecordOutcome.ok record) 0 records) ∧
      (RecentVideoView.handler rt replies records).records = records.map RecordOutcome.ok ∧
      (TotalVideoView.handler rt replies records).records = records.map RecordOutcome.ok := by
  refine ⟨?_, ?_, ?_⟩
  · simp only [ActiveUser.handler]
    rw [promiseAll_of_cover _ _ (by simpa [mapFrom_length] using hcover), map_mapFrom]
    have hkey : mapFrom (fun i record => (ActiveUser.processRecord rt (replies i) record).settled)
        0 records = (mapFrom (fun i record =>
          if rt.reportsErrors (replies i) then RecordOutcome.failed record
          else RecordOutcome.ok record) 0 records).map some := by
      rw [map_mapFrom]
      apply List.ext_getElem?
      intro i
      rw [mapFrom_getElem?, mapFrom_getElem?]
      by_cases hi : i < records.length
      · rw [List.getElem?_eq_getElem hi]
        simp only [Option.map_some', Nat.zero_add, Option.some.injEq]
        exact activeuser_settled_of_decodes rt (replies i) _
          (hdecodes _ (List.getElem_mem _)) (hreplies i hi)
      · rw [List.getElem?_eq_none (Nat.le_of_not_lt hi)]
        rfl
    rw [hkey, collect_map_some]
  · simp only [RecentVideoView.handler, CallbackRun.assemble, List.map_map]
    apply List.map_congr_left
    intro record hmem
    exact recent_outcome_of_decodes rt record (hdecodes record hmem)
  · simp only [TotalVideoView.handler, CallbackRun.assemble, List.map_map]
    apply List.map_congr_left
    intro record hmem
    exact total_outcome_of_decodes rt record (hdecodes record hmem)

theorem graphql_errors_mark_activeuser_records_witness :
    (ActiveUser.handler Runtime.node
        (fun i => if i = 1 then Reply.body Sample.errorsBody else Reply.body Sample.dataBody)
        [2, 0, 1]
        [⟨"a", Sample.viewsPayload⟩, ⟨"b", Sample.emptyObjectPayload⟩,
          ⟨"c", Sample.numberPayload⟩]).response =
      some [⟨"a", "Ok", Sample.viewsPayload⟩, ⟨"b", "ProcessingFailed", Sample.emptyObjectPayload⟩,
        ⟨"c", "Ok", Sample.numberPayload⟩] :=
  (graphql_errors_mark_activeuser_records Runtime.node
    (fun i => if i = 1 then Reply.body Sample.errorsBody else Reply.body Sample.dataBody)
    [2, 0, 1]
    [⟨"a", Sample.viewsPayload⟩, ⟨"b", Sample.emptyObjectPayload⟩, ⟨"c", Sample.numberPayload⟩]
    (by decide) (by decide) (by decide)).1

theorem mapFrom_shift {α β : Type} (f : Nat → α → β) (start : Nat) (l : List α) :
    mapFrom (fun i a => f (i + 1) a) start l = mapFrom f (start + 1) l := by
  induction l generalizing start with
  | nil => rfl
  | cons a rest ih => simp [mapFrom, ih]

theorem collect_insert {α : Type} (l₁ l₂ : List (Option α)) (v : α) :
    collect (l₁ ++ some v :: l₂) =
      (collect (l₁ ++ l₂)).map (fun vs => vs.take l₁.length ++ v :: vs.drop l₁.length) := by
  induction l₁ with
  | nil => cases h : collect l₂ <;> simp [collect, h]
  | cons slot rest ih =>
    cases slot with
    | none => simp [collect]
    | some w =>
      cases hc : collect (rest ++ l₂) <;> simp [collect, ih, hc]

theorem filterMap_insert_none {α β : Type} (f : α → Option β) (l₁ l₂ : List α) (a : α)
    (h : f a = none) : (l₁ ++ a :: l₂).filterMap f = (l₁ ++ l₂).filterMap f := by
  simp [List.filterMap_append, List.filterMap_cons, h]

theorem activeuser_processRecord_of_invalid (rt : Runtime) (reply : Reply)
    (record : StreamRecord) (h : rt.jsonParse (rt.base64ToUtf8 record.data) = none) :
    ActiveUser.processRecord rt reply record = ⟨none, some (RecordOutcome.failed record)⟩ := by
  simp [ActiveUser.processRecord, h]

theorem recent_processRecord_of_invalid (rt : Runtime) (record : StreamRecord)
    (h : rt.jsonParse (rt.base64ToUtf8 record.data) = none) :
    RecentVideoView.processRecord rt record = ⟨RecordOutcome.failed record, none⟩ := by
  simp [RecentVideoView.processRecord, h]

theorem total_processRecord_of_invalid (rt : Runtime) (record : StreamRecord)
    (h : rt.jsonParse (rt.base64ToUtf8 record.data) = none) :
    TotalVideoView.processRecord rt record = ⟨RecordOutcome.failed record, none⟩ := by
  simp [TotalVideoView.processRecord, h]

/-- The runs of `activeuser` over a batch around a record whose text is not
JSON, against the runs over the batch without it. -/
theorem activeuser_runs_insert (rt : Runtime) (replies : Nat → Reply)
    (pre post : List StreamRecord) (bad : StreamRecord)
    (hbad : rt.jsonParse (rt.base64ToUtf8 bad.data) = none) :
    mapFrom (fun i record => ActiveUser.processRecord rt (replies i) record) 0 (pre ++ bad :: post) =
      mapFrom (fun i record => ActiveUser.processRecord rt (skipReply pre.length replies i) record) 0 pre
        ++ ⟨none, some (RecordOutcome.failed bad)⟩ ::
          mapFrom (fun i record => ActiveUser.processRecord rt (skipReply pre.length replies i) record)
            pre.length post := by
  rw [mapFrom_append]
  simp only [mapFrom, Nat.zero_add]
  rw [activeuser_processRecord_of_invalid rt _ bad hbad]
  congr 1
  · apply mapFrom_congr
    intro i hi a
    simp [skipReply, hi]
  · congr 1
    rw [← mapFrom_shift]
    apply mapFrom_congr
    intro i _ a
    simp [skipReply]

/-- C4 (as stated, refuted): malformed base64 does not make decoding fail.
`Buffer.from` skips the `!` of `"!e30="`, which is not base64 as RFC 4648
writes it, and reads `{}`; every handler then processes the record as an empty
object, and `recentvideoview` answers `Ok`. -/
theorem malformed_base64_not_rejected :
    Base64.isCanonical Sample.strayCharacterPayload = false ∧
      Runtime.node.base64ToUtf8 Sample.strayCharacterPayload = "\x7b\x7d" ∧
      (RecentVideoView.handler Runtime.node (fun _ => Reply.body Sample.dataBody)
        [⟨"2", Sample.strayCharacterPayload⟩]).records =
        [⟨"2", "Ok", Sample.strayCharacterPayload⟩] := by
  decide

/-- C4 (amended): a record whose leniently decoded text is not valid JSON gets
`ProcessingFailed` with its `recordId` and `data` echoed, no request is sent
for it, and the handler's response is the response to the batch without the
record (the replies shifted accordingly) with that outcome put in at the
record's index: the other outcomes, and whether the handler returns at all,
are unaffected. -/
theorem invalid_json_record_isolated (h : StreamHandler) (rt : Runtime)
    (replies : Nat → Reply) (order order' : List Nat) (pre post : List StreamRecord)
    (bad : StreamRecord) (hbad : rt.jsonParse (rt.base64ToUtf8 bad.data) = none)
    (hcover : ∀ i, i < (pre ++ bad :: post).length → i ∈ order)
    (hcover' : ∀ i, i < (pre ++ post).length → i ∈ order') :
    h.response rt replies order (pre ++ bad :: post) =
        (h.response rt (skipReply pre.length replies) order' (pre ++ post)).map
          (fun resp => resp.take pre.length ++ RecordOutcome.failed bad :: resp.drop pre.length) ∧
      h.dispatched rt replies order (pre ++ bad :: post) =
        h.dispatched rt (skipReply pre.length replies) order' (pre ++ post) := by
  cases h with
  | activeuser =>
    simp only [StreamHandler.response, StreamHandler.dispatched, ActiveUser.handler]
    rw [promiseAll_of_cover _ _ (by simpa [mapFrom_length] using hcover),
      promiseAll_of_cover _ _ (by simpa [mapFrom_length] using hcover'),
      activeuser_runs_insert rt replies pre post bad hbad, mapFrom_append]
    simp only [Nat.zero_add, List.map_append, List.map_cons]
    rw [collect_insert]
    constructor
    · simp [mapFrom_length]
    · exact filterMap_insert_none _ _ _ _ rfl
  | recentvideoview =>
    simp only [StreamHandler.response, StreamHandler.dispatched, RecentVideoView.handler,
      CallbackRun.assemble, List.map_append, List.map_cons, Option.map_some',
      recent_processRecord_of_invalid rt bad hbad]
    constructor
    · simp
    · exact filterMap_insert_none _ _ _ _ rfl
  | totalvideoview =>
    simp only [StreamHandler.response, StreamHandler.dispatched, TotalVideoView.handler,
      CallbackRun.assemble, List.map_append, List.map_cons, Option.map_some',
      total_processRecord_of_invalid rt bad hbad]
    constructor
    · simp
    · exact filterMap_insert_none _ _ _ _ rfl

theorem invalid_json_record_isolated_witness :
    StreamHandler.activeuser.response Runtime.node (fun _ => Reply.body Sample.dataBody) [1, 0]
        ([⟨"1", Sample.viewsPayload⟩] ++ ⟨"2", "not-valid-base64!!"⟩ :: []) =
      some [⟨"1", "Ok", Sample.viewsPayload⟩, ⟨"2", "ProcessingFailed", "not-valid-base64!!"⟩] :=
  (invalid_json_record_isolated StreamHandler.activeuser Runtime.node
    (fun _ => Reply.body Sample.dataBody) [1, 0] [0] [⟨"1", Sample.viewsPayload⟩] []
    ⟨"2", "not-valid-base64!!"⟩ (by decide) (by decide) (by decide)).1.trans (by decide)

/-! ## Field extraction -/

theorem activeuser_dispatched_of_parse (rt : Runtime) (reply : Reply) (record : StreamRecord)
    (jsonData count : JSValue)
    (hparse : rt.jsonParse (rt.base64ToUtf8 record.data) = some jsonData)
    (hcount : ActiveUser.activeUserCount jsonData = some count) :
    (ActiveUser.processRecord rt reply record).dispatched =
      some ⟨ActiveUser.query, JSProps.cons "count" count JSProps.nil⟩ := by
  unfold ActiveUser.processRecord
  simp only [hparse, hcount]
  repeat' split
  all_goals rfl

theorem recent_processRecord_of_parse (rt : Runtime) (record : StreamRecord)
    (jsonData id views : JSValue)
    (hparse : rt.jsonParse (rt.base64ToUtf8 record.data) = some jsonData)
    (hid : RecentVideoView.videoId jsonData = some id) (hviews : RecentVideoView.recentViews jsonData = some views) :
    RecentVideoView.processRecord rt record =
      ⟨RecordOutcome.ok record,
        some ⟨RecentVideoView.query, JSProps.cons "id" id (JSProps.cons "recent_views" views JSProps.nil)⟩⟩ := by
  simp [RecentVideoView.processRecord, hparse, hid, hviews]

theorem total_processRecord_of_parse (rt : Runtime) (record : StreamRecord)
    (data id total recent : JSValue)
    (hparse : rt.jsonParse (rt.base64ToUtf8 record.data) = some data)
    (hid : TotalVideoView.videoId data = some id) (htotal : TotalVideoView.totalViews data = some total)
    (hrecent : TotalVideoView.recentViews data = some recent) :
    TotalVideoView.processRecord rt record =
      ⟨RecordOutcome.ok record,
        some ⟨TotalVideoView.query, JSProps.cons "id" id (JSProps.cons "total_views" total
          (JSProps.cons "recent_views" recent JSProps.nil))⟩⟩ := by
  simp [TotalVideoView.processRecord, hparse, hid, htotal, hrecent]

theorem JSValue.toBoolean_undefined : JSValue.undefined.toBoolean = false := rfl

/-- The chain `value.k1 || value.k2 || dflt` on an object is the ordered
lookup of the first truthy alias. -/
theorem jsOr_pair_eq_firstTruthy (props : JSProps) (k1 k2 : String) (dflt : JSValue) :
    jsOr (jsOr ((JSValue.obj props).getProp k1) (fun _ => (JSValue.obj props).getProp k2))
      (fun _ => some dflt) = some (firstTruthy props [k1, k2] dflt) := by
  simp only [JSValue.getProp]
  cases h1 : props.lookup k1 with
  | none =>
    cases h2 : props.lookup k2 with
    | none => simp [jsOr_some, firstTruthy, h1, h2, JSValue.toBoolean_undefined]
    | some w =>
      by_cases hw : w.toBoolean = true <;>
        simp [jsOr_some, firstTruthy, h1, h2, hw, JSValue.toBoolean_undefined]
  | some v =>
    by_cases hv : v.toBoolean = true
    · simp [jsOr_some, firstTruthy, h1, hv]
    · cases h2 : props.lookup k2 with
      | none => simp [jsOr_some, firstTruthy, h1, h2, hv, JSValue.toBoolean_undefined]
      | some w =>
        by_cases hw : w.toBoolean = true <;>
          simp [jsOr_some, firstTruthy, h1, h2, hv, hw, JSValue.toBoolean_undefined]

theorem jsOr_single_eq_firstTruthy (props : JSProps) (k : String) (dflt : JSValue) :
    jsOr ((JSValue.obj props).getProp k) (fun _ => some dflt) =
      some (firstTruthy props [k] dflt) := by
  simp only [JSValue.getProp]
  cases h1 : props.lookup k with
  | none => simp [jsOr_some, firstTruthy, h1, JSValue.toBoolean_undefined]
  | some v =>
    by_cases hv : v.toBoolean = true <;> simp [jsOr_some, firstTruthy, h1, hv]

theorem firstTruthy_absent (props : JSProps) (keys : List String) (dflt : JSValue)
    (h : ∀ key, key ∈ keys → props.lookup key = none) : firstTruthy props keys dflt = dflt := by
  induction keys with
  | nil => rfl
  | cons key rest ih =>
    simp only [firstTruthy, h key (List.mem_cons_self _ _)]
    exact ih (fun k hk => h k (List.mem_cons_of_mem _ hk))

theorem firstTruthy_head (props : JSProps) (key : String) (keys : List String)
    (dflt v : JSValue) (hv : props.lookup key = some v) (ht : v.toBoolean = true) :
    firstTruthy props (key :: keys) dflt = v := by
  simp [firstTruthy, hv, ht]

theorem firstTruthy_skip (props : JSProps) (key : String) (keys : List String) (dflt : JSValue)
    (h : ∀ v, props.lookup key = some v → v.toBoolean = false) :
    firstTruthy props (key :: keys) dflt = firstTruthy props keys dflt := by
  cases hl : props.lookup key with
  | none => simp [firstTruthy, hl]
  | some v => simp [firstTruthy, hl, h v hl]

/-- C5 (as stated, refuted): a payload with the key `VIDEOID` does not always
have that key's value as video id: `recentvideoview` replaces the empty
string of `{"VIDEOID":""}` by `"unknown"`, and `totalvideoview` does not read
`VIDEOID` at all (`{"VIDEOID":"42","VIEWS":5}` gives `"unknown"`) but reads
`id`, so that `{"id":"9"}`, which has neither key, gives `"9"`. -/
theorem video_id_key_not_always_extracted :
    JSON.parse "\x7b\"VIDEOID\":\"\"\x7d" = some Sample.emptyVideoId ∧
      RecentVideoView.videoId Sample.emptyVideoId = some (JSValue.str "unknown") ∧
      JSON.parse "\x7b\"VIDEOID\":\"42\",\"VIEWS\":5\x7d" = some Sample.views ∧
      TotalVideoView.videoId Sample.views = some (JSValue.str "unknown") ∧
      JSON.parse "\x7b\"id\":\"9\"\x7d" = some Sample.idOnly ∧
      TotalVideoView.videoId Sample.idOnly = some (JSValue.str "9") := by
  decide

/-- C5 (amended): for a record whose payload parses to an object, the `id` in
the variables of the request `recentvideoview` sends is the value of `VIDEOID`
when that is truthy, else the value of `video_id` when that is truthy, and
`"unknown"` when neither key is present; `totalvideoview` does the same with
`video_id` before `id` and never reads `VIDEOID`. -/
theorem video_id_in_variables (rt : Runtime) (record : StreamRecord) (props : JSProps)
    (hparse : rt.jsonParse (rt.base64ToUtf8 record.data) = some (JSValue.obj props)) :
    (∃ m, (RecentVideoView.processRecord rt record).dispatched = some m ∧
      (∀ v, props.lookup "VIDEOID" = some v → v.toBoolean = true →
        m.vars.lookup "id" = some v) ∧
      (∀ w, (∀ v, props.lookup "VIDEOID" = some v → v.toBoolean = false) →
        props.lookup "video_id" = some w → w.toBoolean = true → m.vars.lookup "id" = some w) ∧
      (props.lookup "VIDEOID" = none → props.lookup "video_id" = none →
        m.vars.lookup "id" = some (JSValue.str "unknown"))) ∧
    (∃ m, (TotalVideoView.processRecord rt record).dispatched = some m ∧
      (∀ v, props.lookup "video_id" = some v → v.toBoolean = true →
        m.vars.lookup "id" = some v) ∧
      (∀ w, (∀ v, props.lookup "video_id" = some v → v.toBoolean = false) →
        props.lookup "id" = some w → w.toBoolean = true → m.vars.lookup "id" = some w) ∧
      (props.lookup "video_id" = none → props.lookup "id" = none →
        m.vars.lookup "id" = some (JSValue.str "unknown"))) := by
  constructor
  · refine ⟨_, congrArg SyncRun.dispatched (recent_processRecord_of_parse rt record _ _ _
      hparse (jsOr_pair_eq_firstTruthy props _ _ _) (jsOr_pair_eq_firstTruthy props _ _ _)), ?_, ?_, ?_⟩
    · intro v hv ht
      simp [JSProps.lookup, firstTruthy_head props _ _ _ v hv ht]
    · intro w hskip hw ht
      simp [JSProps.lookup, firstTruthy_skip props _ _ _ hskip, firstTruthy_head props _ _ _ w hw ht]
    · intro h1 h2
      simp [JSProps.lookup, firstTruthy, h1, h2]
  · refine ⟨_, congrArg SyncRun.dispatched (total_processRecord_of_parse rt record _ _ _ _
      hparse (jsOr_pair_eq_firstTruthy props _ _ _) (jsOr_single_eq_firstTruthy props _ _)
      (jsOr_single_eq_firstTruthy props _ _)), ?_, ?_, ?_⟩
    · intro v hv ht
      simp [JSProps.lookup, firstTruthy_head props _ _ _ v hv ht]
    · intro w hskip hw ht
      simp [JSProps.lookup, firstTruthy_skip props _ _ _ hskip, firstTruthy_head props _ _ _ w hw ht]
    · intro h1 h2
      simp [JSProps.lookup, firstTruthy, h1, h2]

theorem video_id_in_variables_witness :
    ∃ m, (RecentVideoView.processRecord Runtime.node ⟨"1", Sample.viewsPayload⟩).dispatched
        = some m ∧ m.vars.lookup "id" = some (JSValue.str "42") :=
  match video_id_in_variables Runtime.node ⟨"1", Sample.viewsPayload⟩
      (JSProps.cons "VIDEOID" (JSValue.str "42")
        (JSProps.cons "VIEWS" (JSValue.num 5 0) JSProps.nil)) (by decide) with
  | ⟨⟨m, hm, h1, _, _⟩, _⟩ => ⟨m, hm, h1 (JSValue.str "42") (by decide) (by decide)⟩

theorem firstTruthy_isFirstTruthy (props : JSProps) (keys : List String) (dflt : JSValue) :
    IsFirstTruthy props keys dflt (firstTruthy props keys dflt) := by
  induction keys with
  | nil => exact Or.inr ⟨fun k hk => absurd hk (List.not_mem_nil k), rfl⟩
  | cons key rest ih =>
    have hstep : (∀ v, props.lookup key = some v → v.toBoolean = false) →
        IsFirstTruthy props (key :: rest) dflt (firstTruthy props rest dflt) := by
      intro hfalsy
      rcases ih with ⟨before, k, after, hkeys, hk, ht, hbefore⟩ | ⟨hall, hr⟩
      · refine Or.inl ⟨key :: before, k, after, by simp [hkeys], hk, ht, ?_⟩
        intro k' hk' v hv
        rcases List.mem_cons.mp hk' with rfl | hmem
        · exact hfalsy v hv
        · exact hbefore k' hmem v hv
      · refine Or.inr ⟨?_, hr⟩
        intro k' hk' v hv
        rcases List.mem_cons.mp hk' with rfl | hmem
        · exact hfalsy v hv
        · exact hall k' hmem v hv
    cases hl : props.lookup key with
    | none =>
      rw [firstTruthy_skip props key rest dflt (by simp [hl])]
      exact hstep (by simp [hl])
    | some v =>
      by_cases hv : v.toBoolean = true
      · rw [firstTruthy_head props key rest dflt v hl hv]
        exact Or.inl ⟨[], key, rest, rfl, hl, hv, fun k hk => absurd hk (List.not_mem_nil k)⟩
      · have hfalsy : ∀ w, props.lookup key = some w → w.toBoolean = false := by
          intro w hw
          rw [hl] at hw
          cases hw
          simpa using hv
        rw [firstTruthy_skip props key rest dflt hfalsy]
        exact hstep hfalsy

/-- C6: for a record whose payload parses to an object in which none of the
alias keys of a count field is present, the count in the variables of the
request is exactly `1`: `count` in `activeuser` without `USER_COUNT` and
`count`, `recent_views` in `recentvideoview` without `VIEWS` and
`recent_views`, `total_views` in `totalvideoview` without `total_views`, and
`recent_views` there without `recent_views`. -/
theorem absent_count_defaults_to_one (rt : Runtime) (reply : Reply) (record : StreamRecord)
    (props : JSProps)
    (hparse : rt.jsonParse (rt.base64ToUtf8 record.data) = some (JSValue.obj props)) :
    (props.lookup "USER_COUNT" = none → props.lookup "count" = none →
      ∃ m, (ActiveUser.processRecord rt reply record).dispatched = some m ∧
        m.vars.lookup "count" = some (JSValue.num 1 0)) ∧
    (props.lookup "VIEWS" = none → props.lookup "recent_views" = none →
      ∃ m, (RecentVideoView.processRecord rt record).dispatched = some m ∧
        m.vars.lookup "recent_views" = some (JSValue.num 1 0)) ∧
    (props.lookup "total_views" = none →
      ∃ m, (TotalVideoView.processRecord rt record).dispatched = some m ∧
        m.vars.lookup "total_views" = some (JSValue.num 1 0)) ∧
    (props.lookup "recent_views" = none →
      ∃ m, (TotalVideoView.processRecord rt record).dispatched = some m ∧
        m.vars.lookup "recent_views" = some (JSValue.num 1 0)) := by
  refine ⟨?_, ?_, ?_, ?_⟩
  · intro h1 h2
    refine ⟨_, activeuser_dispatched_of_parse rt reply record _ _ hparse
      (jsOr_pair_eq_firstTruthy props _ _ _), ?_⟩
    simp [JSProps.lookup, firstTruthy, h1, h2, JSValue.one]
  · intro h1 h2
    refine ⟨_, congrArg SyncRun.dispatched (recent_processRecord_of_parse rt record _ _ _
      hparse (jsOr_pair_eq_firstTruthy props _ _ _) (jsOr_pair_eq_firstTruthy props _ _ _)), ?_⟩
    simp [JSProps.lookup, firstTruthy, h1, h2, JSValue.one]
  · intro h1
    refine ⟨_, congrArg SyncRun.dispatched (total_processRecord_of_parse rt record _ _ _ _
      hparse (jsOr_pair_eq_firstTruthy props _ _ _) (jsOr_single_eq_firstTruthy props _ _)
      (jsOr_single_eq_firstTruthy props _ _)), ?_⟩
    simp [JSProps.lookup, firstTruthy, h1, JSValue.one]
  · intro h1
    refine ⟨_, congrArg SyncRun.dispatched (total_processRecord_of_parse rt record _ _ _ _
      hparse (jsOr_pair_eq_firstTruthy props _ _ _) (jsOr_single_eq_firstTruthy props _ _)
      (jsOr_single_eq_firstTruthy props _ _)), ?_⟩
    simp [JSProps.lookup, firstTruthy, h1, JSValue.one]

theorem absent_count_defaults_to_one_witness :
    ∃ m, (ActiveUser.processRecord Runtime.node (Reply.body Sample.dataBody)
        ⟨"1", Sample.emptyObjectPayload⟩).dispatched = some m ∧
      m.vars.lookup "count" = some (JSValue.num 1 0) :=
  (absent_count_defaults_to_one Runtime.node (Reply.body Sample.dataBody)
    ⟨"1", Sample.emptyObjectPayload⟩ JSProps.nil (by decide)).1 (by decide) (by decide)

/-- C7 (as stated, refuted): a present count of `0` and a present empty id are
not returned as they are: `{"VIEWS":0}` gives the recent views `1`,
`{"VIEWS":0,"recent_views":7}` gives `7` and `{"VIDEOID":""}` gives the id
`"unknown"`. -/
theorem present_falsy_value_not_kept :
    JSON.parse "\x7b\"VIEWS\":0\x7d" = some Sample.zeroViews ∧
      RecentVideoView.recentViews Sample.zeroViews = some (JSValue.num 1 0) ∧
      JSON.parse "\x7b\"VIEWS\":0,\"recent_views\":7\x7d" = some Sample.zeroViewsWithAlias ∧
      RecentVideoView.recentViews Sample.zeroViewsWithAlias = some (JSValue.num 7 0) ∧
      RecentVideoView.videoId Sample.emptyVideoId = some (JSValue.str "unknown") := by
  decide

/-- C7 (amended): field extraction is an ordered alias lookup by truthiness:
for every object payload and every field the extracted value is the value of
the first alias key, in the field's priority list, whose value is truthy, and
the literal default (`1` for counts, `"unknown"` for the id) when no alias key
holds a truthy value; a present `0`, `""`, `false` or `null` is passed over
like an absent key. -/
theorem extraction_is_first_truthy_alias (props : JSProps) :
    (∃ r, ActiveUser.activeUserCount (JSValue.obj props) = some r ∧
      IsFirstTruthy props ["USER_COUNT", "count"] (JSValue.num 1 0) r) ∧
    (∃ r, RecentVideoView.videoId (JSValue.obj props) = some r ∧
      IsFirstTruthy props ["VIDEOID", "video_id"] (JSValue.str "unknown") r) ∧
    (∃ r, RecentVideoView.recentViews (JSValue.obj props) = some r ∧
      IsFirstTruthy props ["VIEWS", "recent_views"] (JSValue.num 1 0) r) ∧
    (∃ r, TotalVideoView.videoId (JSValue.obj props) = some r ∧
      IsFirstTruthy props ["video_id", "id"] (JSValue.str "unknown") r) ∧
    (∃ r, TotalVideoView.totalViews (JSValue.obj props) = some r ∧
      IsFirstTruthy props ["total_views"] (JSValue.num 1 0) r) ∧
    (∃ r, TotalVideoView.recentViews (JSValue.obj props) = some r ∧
      IsFirstTruthy props ["recent_views"] (JSValue.num 1 0) r) :=
  ⟨⟨_, jsOr_pair_eq_firstTruthy props _ _ _, firstTruthy_isFirstTruthy props _ _⟩,
    ⟨_, jsOr_pair_eq_firstTruthy props _ _ _, firstTruthy_isFirstTruthy props _ _⟩,
    ⟨_, jsOr_pair_eq_firstTruthy props _ _ _, firstTruthy_isFirstTruthy props _ _⟩,
    ⟨_, jsOr_pair_eq_firstTruthy props _ _ _, firstTruthy_isFirstTruthy props _ _⟩,
    ⟨_, jsOr_single_eq_firstTruthy props _ _, firstTruthy_isFirstTruthy props _ _⟩,
    ⟨_, jsOr_single_eq_firstTruthy props _ _, firstTruthy_isFirstTruthy props _ _⟩⟩

theorem JSValue.getProp_of_isScalarOrArray (v : JSValue) (key : String)
    (h : v.isScalarOrArray = true) : v.getProp key = some JSValue.undefined := by
  cases v <;> simp [JSValue.isScalarOrArray] at h <;> rfl

/-- C8 (as stated, refuted): the payload `5` is valid JSON whose top-level
value is not an object, yet `recentvideoview` answers `Ok` for it and sends
the mutation with the defaulted fields `id = "unknown"`, `recent_views = 1`. -/
theorem number_payload_processed_with_defaults :
    JSON.parse (Runtime.node.base64ToUtf8 Sample.numberPayload) = some (JSValue.num 5 0) ∧
      (RecentVideoView.handler Runtime.node (fun _ => Reply.body Sample.dataBody)
        [⟨"1", Sample.numberPayload⟩]).records = [⟨"1", "Ok", Sample.numberPayload⟩] ∧
      (RecentVideoView.handler Runtime.node (fun _ => Reply.body Sample.dataBody)
        [⟨"1", Sample.numberPayload⟩]).dispatched =
        [⟨RecentVideoView.query, JSProps.cons "id" (JSValue.str "unknown")
          (JSProps.cons "recent_views" (JSValue.num 1 0) JSProps.nil)⟩] := by
  decide

/-- C8 (amended): a payload that parses to `null` makes the property reads
throw, so the record's outcome is `ProcessingFailed` and no mutation is sent
for it, in all three handlers; a payload that parses to a number, a string, a
boolean or an array is not rejected: every field takes its default, the
mutation with the defaulted fields is sent, and `recentvideoview` and
`totalvideoview` answer `Ok`. -/
theorem non_object_payload_outcome (rt : Runtime) (reply : Reply) (record : StreamRecord)
    (jsonData : JSValue)
    (hparse : rt.jsonParse (rt.base64ToUtf8 record.data) = some jsonData) :
    (jsonData = JSValue.null →
      ActiveUser.processRecord rt reply record = ⟨none, some (RecordOutcome.failed record)⟩ ∧
      RecentVideoView.processRecord rt record = ⟨RecordOutcome.failed record, none⟩ ∧
      TotalVideoView.processRecord rt record = ⟨RecordOutcome.failed record, none⟩) ∧
    (jsonData.isScalarOrArray = true →
      (ActiveUser.processRecord rt reply record).dispatched =
        some ⟨ActiveUser.query, JSProps.cons "count" (JSValue.num 1 0) JSProps.nil⟩ ∧
      RecentVideoView.processRecord rt record =
        ⟨RecordOutcome.ok record, some ⟨RecentVideoView.query,
          JSProps.cons "id" (JSValue.str "unknown")
            (JSProps.cons "recent_views" (JSValue.num 1 0) JSProps.nil)⟩⟩ ∧
      TotalVideoView.processRecord rt record =
        ⟨RecordOutcome.ok record, some ⟨TotalVideoView.query,
          JSProps.cons "id" (JSValue.str "unknown")
            (JSProps.cons "total_views" (JSValue.num 1 0)
              (JSProps.cons "recent_views" (JSValue.num 1 0) JSProps.nil))⟩⟩) := by
  constructor
  · intro hnull
    subst hnull
    refine ⟨?_, ?_, ?_⟩
    · simp [ActiveUser.processRecord, hparse, ActiveUser.activeUserCount, JSValue.getProp, jsOr]
    · simp [RecentVideoView.processRecord, hparse, RecentVideoView.videoId, JSValue.getProp, jsOr]
    · simp [TotalVideoView.processRecord, hparse, TotalVideoView.videoId, JSValue.getProp, jsOr]
  · intro hscalar
    have hget := fun key => JSValue.getProp_of_isScalarOrArray jsonData key hscalar
    refine ⟨?_, ?_, ?_⟩
    · refine activeuser_dispatched_of_parse rt reply record jsonData _ hparse ?_
      simp [ActiveUser.activeUserCount, hget, jsOr_some, JSValue.toBoolean_undefined, JSValue.one]
    · refine recent_processRecord_of_parse rt record jsonData _ _ hparse ?_ ?_
      · simp [RecentVideoView.videoId, hget, jsOr_some, JSValue.toBoolean_undefined]
      · simp [RecentVideoView.recentViews, hget, jsOr_some, JSValue.toBoolean_undefined,
          JSValue.one]
    · refine total_processRecord_of_parse rt record jsonData _ _ _ hparse ?_ ?_ ?_
      · simp [TotalVideoView.videoId, hget, jsOr_some, JSValue.toBoolean_undefined]
      · simp [TotalVideoView.totalViews, hget, jsOr_some, JSValue.toBoolean_undefined,
          JSValue.one]
      · simp [TotalVideoView.recentViews, hget, jsOr_some, JSValue.toBoolean_undefined,
          JSValue.one]

theorem non_object_payload_outcome_witness :
    RecentVideoView.processRecord Runtime.node ⟨"3", Sample.nullPayload⟩ =
      ⟨RecordOutcome.failed ⟨"3", Sample.nullPayload⟩, none⟩ :=
  ((non_object_payload_outcome Runtime.node Reply.networkError ⟨"3", Sample.nullPayload⟩
    JSValue.null (by decide)).1 rfl).2.1

/-! ## `getVideoId` -/

theorem split_ne_nil (sep : Char) (l : List Char) : Tracker.split sep l ≠ [] := by
  cases l with
  | nil => simp [Tracker.split]
  | cons c cs =>
    simp only [Tracker.split]
    split
    · simp
    · split <;> simp

theorem split_singleton (sep : Char) (l p : List Char) (h : Tracker.split sep l = [p]) :
    p = l ∧ sep ∉ l := by
  induction l generalizing p with
  | nil =>
    simp only [Tracker.split, List.cons.injEq, and_true] at h
    simp [← h]
  | cons c cs ih =>
    simp only [Tracker.split] at h
    split at h
    · simp only [List.cons.injEq] at h
      exact absurd h.2 (split_ne_nil sep cs)
    · rename_i hc
      split at h
      · rename_i piece pieces hs
        simp only [List.cons.injEq] at h
        obtain ⟨hp, hnil⟩ := h
        subst hnil
        obtain ⟨h1, h2⟩ := ih piece hs
        subst h1
        refine ⟨hp.symm, ?_⟩
        simp only [List.mem_cons, not_or]
        exact ⟨fun h => hc h.symm, h2⟩
      · rename_i hs
        exact absurd hs (split_ne_nil sep cs)

theorem split_of_not_mem (sep : Char) (l : List Char) (h : sep ∉ l) :
    Tracker.split sep l = [l] := by
  induction l with
  | nil => rfl
  | cons c cs ih =>
    simp only [List.mem_cons, not_or] at h
    have hc : ¬ c = sep := fun e => h.1 e.symm
    simp [Tracker.split, hc, ih h.2]

theorem getLast?_cons_of_ne_nil {α : Type} (a : α) (l : List α) (h : l ≠ []) :
    (a :: l).getLast? = l.getLast? := by
  cases l with
  | nil => exact absurd rfl h
  | cons b bs => exact List.getLast?_cons_cons

/-- The last piece of a text in which the separator occurs is the text after
its last occurrence. -/
theorem split_getLast_after (sep : Char) (before seg : List Char) (h : sep ∉ seg) :
    (Tracker.split sep (before ++ sep :: seg)).getLast? = some seg := by
  induction before with
  | nil => simp [Tracker.split, split_of_not_mem sep seg h]
  | cons c cs ih =>
    rw [List.cons_append, Tracker.split]
    split
    · rw [getLast?_cons_of_ne_nil _ _ (split_ne_nil sep _)]
      exact ih
    · split
      · rename_i piece pieces hs
        cases pieces with
        | nil =>
          have := (split_singleton sep _ piece hs).2
          simp at this
        | cons q r =>
          rw [hs] at ih
          simpa [List.getLast?_cons_cons] using ih
      · rename_i hs
        exact absurd hs (split_ne_nil sep _)

theorem exists_last_occurrence (sep : Char) (l : List Char) (h : sep ∈ l) :
    ∃ before seg, l = before ++ sep :: seg ∧ sep ∉ seg := by
  induction l with
  | nil => cases h
  | cons c cs ih =>
    by_cases hcs : sep ∈ cs
    · obtain ⟨before, seg, hl, hseg⟩ := ih hcs
      exact ⟨c :: before, seg, by simp [hl], hseg⟩
    · have hc : sep = c := by
        rcases List.mem_cons.mp h with h1 | h1
        · exact h1
        · exact absurd h1 hcs
      exact ⟨[], cs, by simp [hc], hcs⟩

/-- The last piece of `split` is the last segment of the text, and the only one. -/
theorem isLastSegment_iff (sep : Char) (text seg : List Char) :
    IsLastSegment sep text seg ↔ (Tracker.split sep text).getLast? = some seg := by
  constructor
  · rintro ⟨hseg, before, htext, hbefore⟩
    subst htext
    rcases hbefore with rfl | hlast
    · simp [split_of_not_mem sep seg hseg]
    · obtain ⟨init, rfl⟩ : ∃ init, before = init ++ [sep] := by
        rcases List.eq_nil_or_concat before with rfl | ⟨init, x, rfl⟩
        · simp at hlast
        · simp at hlast
          exact ⟨init, by simp [hlast]⟩
      simpa using split_getLast_after sep init seg hseg
  · intro hlast
    by_cases hmem : sep ∈ text
    · obtain ⟨before, s, htext, hs⟩ := exists_last_occurrence sep text hmem
      have := split_getLast_after sep before s hs
      rw [← htext, hlast] at this
      cases this
      exact ⟨hs, before ++ [sep], by simp [htext], Or.inr (by simp)⟩
    · rw [split_of_not_mem sep text hmem] at hlast
      cases hlast
      exact ⟨hmem, [], rfl, Or.inl rfl⟩

theorem split_head (sep : Char) (l : List Char) :
    (Tracker.split sep l).head? = some (l.takeWhile (fun c => c ≠ sep)) := by
  induction l with
  | nil => rfl
  | cons c cs ih =>
    simp only [Tracker.split]
    split
    · rename_i hc
      simp [List.takeWhile, hc]
    · rename_i hc
      split
      · rename_i piece pieces hs
        rw [hs] at ih
        simp only [List.head?_cons, Option.some.injEq] at ih
        simp [List.takeWhile, hc, ih]
      · rename_i hs
        exact absurd hs (split_ne_nil sep cs)

/-- The maximal prefix of characters satisfying `p` is `takeWhile p`, and the
only one. -/
theorem isMaximalPrefix_iff (p : Char → Bool) (text pre : List Char) :
    IsMaximalPrefix p text pre ↔ pre = text.takeWhile p := by
  constructor
  · rintro ⟨hall, rest, htext, hrest⟩
    subst htext
    rw [List.takeWhile_append_of_pos hall]
    cases rest with
    | nil => simp
    | cons c cs =>
      have hc := hrest c rfl
      simp [List.takeWhile, hc]
  · intro hpre
    subst hpre
    refine ⟨fun c hc => List.mem_takeWhile_imp hc, text.dropWhile p,
      (List.takeWhile_append_dropWhile p text).symm, ?_⟩
    intro c hc
    induction text with
    | nil => simp at hc
    | cons d ds ih =>
      by_cases hd : p d = true
      · simp only [List.dropWhile, hd] at hc
        exact ih hc
      · simp only [List.dropWhile, hd] at hc
        simp only [List.head?_cons, Option.some.injEq] at hc
        subst hc
        simpa using hd

/-- C10: with the file name of a URL being its last `/`-separated segment up
to the first `?`, `getVideoId` returns the maximal non-empty prefix of the
file name that consists of decimal digits, and `null` exactly when the URL is
empty or missing or the file name does not begin with a digit. -/
theorem getVideoId_leading_digits (url : String) :
    (∃ seg, IsLastSegment '/' url.toList seg ∧
      IsMaximalPrefix (fun c => c ≠ '?') seg (Tracker.filename url)) ∧
    (∀ seg name, IsLastSegment '/' url.toList seg →
      IsMaximalPrefix (fun c => c ≠ '?') seg name → name = Tracker.filename url) ∧
    (∀ id, Tracker.getVideoId (some url) = some id ↔
      id ≠ "" ∧ IsMaximalPrefix Char.isDigit (Tracker.filename url) id.toList) ∧
    (Tracker.getVideoId (some url) = none ↔
      url = "" ∨ ∀ c, (Tracker.filename url).head? = some c → c.isDigit = false) ∧
    Tracker.getVideoId none = none := by
  obtain ⟨seg, hseg⟩ : ∃ seg, (Tracker.split '/' url.toList).getLast? = some seg := by
    cases h : (Tracker.split '/' url.toList).getLast? with
    | none => exact absurd (List.getLast?_eq_none_iff.mp h) (split_ne_nil _ _)
    | some seg => exact ⟨seg, rfl⟩
  have hname : Tracker.filename url = seg.takeWhile (fun c => c ≠ '?') := by
    simp only [Tracker.filename, hseg, split_head, Option.getD_some]
  refine ⟨⟨seg, (isLastSegment_iff _ _ _).mpr hseg, (isMaximalPrefix_iff _ _ _).mpr hname⟩,
    ?_, ?_, ?_, rfl⟩
  · intro seg' name h1 h2
    have h1' := (isLastSegment_iff _ _ _).mp h1
    rw [hseg] at h1'
    cases h1'
    rw [hname]
    exact (isMaximalPrefix_iff _ _ _).mp h2
  · intro id
    rw [isMaximalPrefix_iff]
    by_cases hurl : url = ""
    · subst hurl
      have hfile : Tracker.filename "" = [] := by decide
      simp only [Tracker.getVideoId, if_true, hfile, List.takeWhile_nil]
      constructor
      · intro h
        cases h
      · rintro ⟨hid, hnil⟩
        exact absurd (String.ext hnil) hid
    · simp only [Tracker.getVideoId, hurl, if_false]
      constructor
      · intro h
        split at h
        · cases h
        · rename_i hne
          cases h
          refine ⟨?_, rfl⟩
          intro he
          apply hne
          have := congrArg String.toList he
          simpa using this
      · rintro ⟨hid, hds⟩
        have hne : ¬ ((Tracker.filename url).takeWhile Char.isDigit).isEmpty = true := by
          rw [← hds]
          intro he
          apply hid
          apply String.ext
          simpa using he
        rw [if_neg hne, ← hds]
        rfl
  · by_cases hurl : url = ""
    · subst hurl
      simp [Tracker.getVideoId]
    · simp only [Tracker.getVideoId, hurl, if_false, false_or]
      cases hf : Tracker.filename url with
      | nil => simp
      | cons c cs =>
        by_cases hc : c.isDigit = true
        · simp [List.takeWhile, hc]
        · simp [List.takeWhile, hc]

/-! ## The cool-down of the client view tracker -/

theorem lastTracked_of_tracked (s : Tracker.State) (videoId : String) (t : Int)
    (h : s.tracked videoId = some t) : Tracker.lastTracked s videoId = t := by
  unfold Tracker.lastTracked
  rw [h]
  by_cases ht : t = 0 <;> simp [ht]

theorem trackView_tracked (s : Tracker.State) (videoId : String) :
    (Tracker.trackView s videoId).tracked = s.tracked := by
  unfold Tracker.trackView
  simp only
  split <;> rfl

theorem trackView_calls (s : Tracker.State) (videoId : String) :
    (Tracker.trackView s videoId).calls = s.calls ++ [videoId] := by
  unfold Tracker.trackView
  simp only
  split <;> rfl

theorem trackView_dispatched (s : Tracker.State) (videoId : String) :
    (Tracker.trackView s videoId).dispatched =
      if videoId ∈ s.tracking then s.dispatched else s.dispatched ++ [⟨videoId, 1, 1⟩] := by
  unfold Tracker.trackView
  simp only
  split <;> rfl

/-- A visit inside the cool-down window of an id leaves the id's last-tracked
time, its calls of `trackView` and its posted mutations as they are. -/
theorem visit_within_window (s : Tracker.State) (now t1 : Int) (video : Tracker.Video)
    (videoId : String) (htracked : s.tracked videoId = some t1) (hnow : now - t1 ≤ 45000) :
    (Tracker.visit s now video).tracked videoId = some t1 ∧
      (Tracker.visit s now video).attempts videoId = s.attempts videoId ∧
      (Tracker.visit s now video).sent videoId = s.sent videoId := by
  unfold Tracker.visit
  split
  · exact ⟨htracked, rfl, rfl⟩
  · split
    · exact ⟨htracked, rfl, rfl⟩
    · rename_i other _
      split
      · exact ⟨htracked, rfl, rfl⟩
      · split
        · rename_i hcool
          have hne : ¬ other = videoId := by
            intro he
            subst he
            rw [lastTracked_of_tracked s other t1 htracked] at hcool
            omega
          have hne' : ¬ videoId = other := fun he => hne he.symm
          refine ⟨?_, ?_, ?_⟩
          · rw [trackView_tracked]
            simp [hne', htracked]
          · simp [Tracker.State.attempts, trackView_calls, List.count_append, List.count_cons,
              hne, hne']
          · simp only [Tracker.State.sent, trackView_dispatched]
            split
            · rfl
            · simp [List.countP_append, hne]
        · exact ⟨htracked, rfl, rfl⟩

theorem tick_within_window (readings : List (Int × Tracker.Video)) (s : Tracker.State)
    (t1 : Int) (videoId : String) (htracked : s.tracked videoId = some t1)
    (hwin : ∀ r, r ∈ readings → r.1 - t1 ≤ 45000) :
    (Tracker.tick s readings).tracked videoId = some t1 ∧
      (Tracker.tick s readings).attempts videoId = s.attempts videoId ∧
      (Tracker.tick s readings).sent videoId = s.sent videoId := by
  induction readings generalizing s with
  | nil => exact ⟨htracked, rfl, rfl⟩
  | cons r rest ih =>
    obtain ⟨h1, h2, h3⟩ := visit_within_window s r.1 t1 r.2 videoId htracked
      (hwin r (List.mem_cons_self _ _))
    obtain ⟨k1, k2, k3⟩ := ih (Tracker.visit s r.1 r.2) h1
      (fun q hq => hwin q (List.mem_cons_of_mem _ hq))
    exact ⟨k1, k2.trans h2, k3.trans h3⟩

theorem step_within_window (s : Tracker.State) (e : Tracker.Event) (lo t1 : Int)
    (videoId : String) (htracked : s.tracked videoId = some t1)
    (hwin : e.readsWithin lo (t1 + 45000)) :
    (Tracker.step s e).tracked videoId = some t1 ∧
      (Tracker.step s e).attempts videoId = s.attempts videoId ∧
      (Tracker.step s e).sent videoId = s.sent videoId := by
  cases e with
  | tick readings =>
    apply tick_within_window readings s t1 videoId htracked
    intro r hr
    have := (hwin r hr).2
    omega
  | settle now other =>
    simp only [Tracker.step, Tracker.settle]
    split <;> exact ⟨htracked, rfl, rfl⟩
  | timeout now other =>
    simp only [Tracker.step, Tracker.timeout]
    split <;> exact ⟨htracked, rfl, rfl⟩

/-- Whatever the event loop runs inside the cool-down window of an id, the
id's last-tracked time stays and no call of `trackView` or mutation for the id
is added. -/
theorem run_within_window (events : List Tracker.Event) (s : Tracker.State) (lo t1 : Int)
    (videoId : String) (htracked : s.tracked videoId = some t1)
    (hwin : ∀ e, e ∈ events → e.readsWithin lo (t1 + 45000)) :
    (Tracker.run s events).tracked videoId = some t1 ∧
      (Tracker.run s events).attempts videoId = s.attempts videoId ∧
      (Tracker.run s events).sent videoId = s.sent videoId := by
  induction events generalizing s with
  | nil => exact ⟨htracked, rfl, rfl⟩
  | cons e rest ih =>
    obtain ⟨h1, h2, h3⟩ := step_within_window s e lo t1 videoId htracked
      (hwin e (List.mem_cons_self _ _))
    obtain ⟨k1, k2, k3⟩ := ih (Tracker.step s e) h1
      (fun q hq => hwin q (List.mem_cons_of_mem _ hq))
    exact ⟨k1, k2.trans h2, k3.trans h3⟩

/-- The visit of an eligible element whose cool-down has elapsed records the
time and calls `trackView`. -/
theorem visit_attempt (s : Tracker.State) (t1 : Int) (video : Tracker.Video) (videoId : String)
    (helig : video.eligibleFor videoId) (hcool : t1 - Tracker.lastTracked s videoId > 45000) :
    Tracker.visit s t1 video =
      Tracker.trackView
        { s with tracked := fun k => if k = videoId then some t1 else s.tracked k } videoId := by
  obtain ⟨hpaused, htime, hid⟩ := helig
  have hsrc : video.currentSrc ≠ "" := by
    intro he
    rw [he] at hid
    simp [Tracker.getVideoId] at hid
  have hne : videoId ≠ "" := by
    intro he
    subst he
    unfold Tracker.getVideoId at hid
    simp only [hsrc, if_false] at hid
    split at hid
    · cases hid
    · rename_i hnonempty
      have hdata := congrArg String.data (Option.some.inj hid)
      simp only at hdata
      rw [hdata] at hnonempty
      exact hnonempty rfl
  unfold Tracker.visit
  have hguard : (video.paused || decide (video.currentSrc = "") ||
      decide (video.currentTime < 1)) = false := by
    simp [hpaused, hsrc, not_lt.mpr htime]
  simp only [hguard, hid, hne, hcool, if_true, if_false, Bool.false_eq_true]

/-- C9 (as stated, refuted): a view of video `42` is posted at 100000 and its
request does not settle, so the id stays in the in-flight set.  The tick at
`t1 = 150000` issues a tracking attempt (the calls of `trackView` go from one
to two) and the tick at `t2 = 155000` is suppressed, but the number of posted
mutations is one before `t1` and one after `t2`: the two attempts yield no
mutation at all, not exactly one. -/
theorem cooldown_attempts_can_post_nothing :
    (Tracker.run Tracker.State.initial [Tracker.Event.tick [(100000, Tracker.Sample.playing)]]
        ).tracking = ["42"] ∧
      (Tracker.run Tracker.State.initial
        [Tracker.Event.tick [(100000, Tracker.Sample.playing)]]).attempts "42" = 1 ∧
      (Tracker.run Tracker.State.initial
        [Tracker.Event.tick [(100000, Tracker.Sample.playing)]]).sent "42" = 1 ∧
      (Tracker.run Tracker.State.initial
        [Tracker.Event.tick [(100000, Tracker.Sample.playing)],
          Tracker.Event.tick [(150000, Tracker.Sample.playing)]]).attempts "42" = 2 ∧
      (Tracker.run Tracker.State.initial
        [Tracker.Event.tick [(100000, Tracker.Sample.playing)],
          Tracker.Event.tick [(150000, Tracker.Sample.playing)],
          Tracker.Event.tick [(155000, Tracker.Sample.playing)]]).attempts "42" = 2 ∧
      (Tracker.run Tracker.State.initial
        [Tracker.Event.tick [(100000, Tracker.Sample.playing)],
          Tracker.Event.tick [(150000, Tracker.Sample.playing)],
          Tracker.Event.tick [(155000, Tracker.Sample.playing)]]).sent "42" = 1 := by
  decide

/-- C9 (amended): if the visit of an eligible element at `t1` issues a
tracking attempt for its id, then, whatever the event loop runs up to `t2`, the
visit of an eligible element with that id at a time `t2` with `t1 ≤ t2` and
`t2 - t1 ≤ 45000` changes nothing: it does not call `trackView` and the
last-tracked time stays `t1`.  The two attempts yield at most one posted
mutation: exactly one when the id was not in the in-flight set at `t1`, none
when it was. -/
theorem cooldown_suppresses_second_attempt (s : Tracker.State) (videoId : String)
    (t1 t2 : Int) (v1 v2 : Tracker.Video) (between : List Tracker.Event)
    (h1 : v1.eligibleFor videoId) (hattempt : t1 - Tracker.lastTracked s videoId > 45000)
    (h2 : v2.eligibleFor videoId) (horder : t1 ≤ t2) (hwindow : t2 - t1 ≤ 45000)
    (hbetween : ∀ e, e ∈ between → e.readsWithin t1 t2) :
    (Tracker.visit s t1 v1).attempts videoId = s.attempts videoId + 1 ∧
      (Tracker.run (Tracker.visit s t1 v1) between).attempts videoId =
        s.attempts videoId + 1 ∧
      Tracker.visit (Tracker.run (Tracker.visit s t1 v1) between) t2 v2 =
        Tracker.run (Tracker.visit s t1 v1) between ∧
      (Tracker.visit (Tracker.run (Tracker.visit s t1 v1) between) t2 v2).tracked videoId =
        some t1 ∧
      (Tracker.visit (Tracker.run (Tracker.visit s t1 v1) between) t2 v2).sent videoId =
        s.sent videoId + (if videoId ∈ s.tracking then 0 else 1) := by
  have hvisit := visit_attempt s t1 v1 videoId h1 hattempt
  have htracked1 : (Tracker.visit s t1 v1).tracked videoId = some t1 := by
    rw [hvisit, trackView_tracked]
    simp
  have hcalls1 : (Tracker.visit s t1 v1).attempts videoId = s.attempts videoId + 1 := by
    simp [Tracker.State.attempts, hvisit, trackView_calls, List.count_append]
  have hsent1 : (Tracker.visit s t1 v1).sent videoId =
      s.sent videoId + (if videoId ∈ s.tracking then 0 else 1) := by
    simp only [Tracker.State.sent, hvisit, trackView_dispatched]
    split <;> simp [List.countP_append]
  obtain ⟨k1, k2, k3⟩ := run_within_window between (Tracker.visit s t1 v1) t1 t1 videoId htracked1
    (by
      intro e he
      have := hbetween e he
      cases e with
      | tick readings =>
        intro r hr
        have := this r hr
        constructor <;> omega
      | settle _ _ => trivial
      | timeout _ _ => trivial)
  have hquiet : Tracker.visit (Tracker.run (Tracker.visit s t1 v1) between) t2 v2 =
      Tracker.run (Tracker.visit s t1 v1) between := by
    obtain ⟨hpaused, htime, hid⟩ := h2
    generalize Tracker.run (Tracker.visit s t1 v1) between = s2 at k1
    unfold Tracker.visit
    split
    · rfl
    · simp only [hid]
      split
      · rfl
      · rw [lastTracked_of_tracked _ videoId t1 k1]
        have : ¬ t2 - t1 > 45000 := by omega
        simp [this]
  refine ⟨hcalls1, k2.trans hcalls1, hquiet, ?_, ?_⟩
  · rw [hquiet]; exact k1
  · rw [hquiet, k3]; exact hsent1

theorem cooldown_suppresses_second_attempt_witness :
    (Tracker.visit (Tracker.run (Tracker.visit Tracker.State.initial 100000
        Tracker.Sample.playing) [Tracker.Event.settle 100300 "42"]) 140000
        Tracker.Sample.playing).sent "42" = 1 :=
  (cooldown_suppresses_second_attempt Tracker.State.initial "42" 100000 140000
    Tracker.Sample.playing Tracker.Sample.playing [Tracker.Event.settle 100300 "42"]
    (by decide) (by decide) (by decide) (by decide) (by decide)
    (by decide)).2.2.2.2

/-! ## The callback handlers and the backend -/

theorem JSValue.getProp_of_not_readable (v : JSValue) (key : String)
    (h : v.readable = false) : v.getProp key = none := by
  cases v <;> simp [JSValue.readable] at h <;> rfl

theorem recent_outcome_eq (rt : Runtime) (record : StreamRecord) :
    (RecentVideoView.processRecord rt record).outcome =
      if rt.decodes record = true then RecordOutcome.ok record
      else RecordOutcome.failed record := by
  by_cases h : rt.decodes record = true
  · rw [if_pos h]
    exact recent_outcome_of_decodes rt record h
  · rw [if_neg h]
    unfold Runtime.decodes at h
    unfold RecentVideoView.processRecord
    cases hp : rt.jsonParse (rt.base64ToUtf8 record.data) with
    | none => rfl
    | some jsonData =>
      simp only [hp, Bool.not_eq_true] at h
      simp [RecentVideoView.videoId, JSValue.getProp_of_not_readable jsonData _ h, jsOr]

theorem total_outcome_eq (rt : Runtime) (record : StreamRecord) :
    (TotalVideoView.processRecord rt record).outcome =
      if rt.decodes record = true then RecordOutcome.ok record
      else RecordOutcome.failed record := by
  by_cases h : rt.decodes record = true
  · rw [if_pos h]
    exact total_outcome_of_decodes rt record h
  · rw [if_neg h]
    unfold Runtime.decodes at h
    unfold TotalVideoView.processRecord
    cases hp : rt.jsonParse (rt.base64ToUtf8 record.data) with
    | none => simp [hp]
    | some data =>
      simp only [hp, Bool.not_eq_true] at h
      simp [hp, TotalVideoView.videoId, JSValue.getProp_of_not_readable data _ h, jsOr]

/-- C14: in `recentvideoview` and `totalvideoview` the outcome of a record is
decided before its request completes: for every batch and every two
behaviours of the backend the returned `records` are the same list, in which
a record has the result `Ok` exactly when its payload decodes (the text
parses and the property reads do not throw) and `ProcessingFailed` otherwise. -/
theorem callback_records_independent_of_backend (rt : Runtime) (replies replies' : Nat → Reply)
    (records : List StreamRecord) :
    (RecentVideoView.handler rt replies records).records =
        (RecentVideoView.handler rt replies' records).records ∧
      (TotalVideoView.handler rt replies records).records =
        (TotalVideoView.handler rt replies' records).records ∧
      (RecentVideoView.handler rt replies records).records =
        records.map (fun record =>
          if rt.decodes record = true then RecordOutcome.ok record
          else RecordOutcome.failed record) ∧
      (TotalVideoView.handler rt replies records).records =
        records.map (fun record =>
          if rt.decodes record = true then RecordOutcome.ok record
          else RecordOutcome.failed record) ∧
      (∀ record, ((RecentVideoView.processRecord rt record).outcome.result = "Ok" ↔
          rt.decodes record = true) ∧
        ((TotalVideoView.processRecord rt record).outcome.result = "Ok" ↔
          rt.decodes record = true)) := by
  refine ⟨rfl, rfl, ?_, ?_, ?_⟩
  · simp only [RecentVideoView.handler, CallbackRun.assemble, List.map_map]
    apply List.map_congr_left
    intro record _
    exact recent_outcome_eq rt record
  · simp only [TotalVideoView.handler, CallbackRun.assemble, List.map_map]
    apply List.map_congr_left
    intro record _
    exact total_outcome_eq rt record
  · intro record
    rw [recent_outcome_eq, total_outcome_eq]
    by_cases h : rt.decodes record = true
    · simp [h, RecordOutcome.ok]
    · simp [h, RecordOutcome.failed]

/-! ## The session counter aggregator -/

/-- C11 (as stated, refuted): a successful scan does not make the handler
return 200: the scan returns two sessions, the item with `count = 2` is sent,
the put fails, and the handler returns the status code 500 without
`activeUsers`. -/
theorem aggregator_put_failure_returns_500 :
    (CountActiveSessions.handler
        (CountActiveSessions.ScanOutcome.returned
          (some [JSValue.obj (JSProps.cons "sessionId" (JSValue.str "a") JSProps.nil),
            JSValue.obj (JSProps.cons "sessionId" (JSValue.str "b") JSProps.nil)]))
        (fun _ => CountActiveSessions.PutOutcome.failed "throttled") 1700 1701).puts =
        [CountActiveSessions.counterItem 2 1700] ∧
      (CountActiveSessions.handler
        (CountActiveSessions.ScanOutcome.returned
          (some [JSValue.obj (JSProps.cons "sessionId" (JSValue.str "a") JSProps.nil),
            JSValue.obj (JSProps.cons "sessionId" (JSValue.str "b") JSProps.nil)]))
        (fun _ => CountActiveSessions.PutOutcome.failed "throttled") 1700 1701).response =
        ⟨500, JSProps.cons "error" (JSValue.str "throttled") JSProps.nil⟩ := by
  decide

/-- C11 (amended): for every successful scan returning `K` items, exactly one
item is sent to the counters store, with `id = "current"` and `count = K`;
for an empty or absent `Items` the `count` field is present with the value
`0`; when the put succeeds the handler returns the status code 200 with
`activeUsers = K`, and when the put fails it returns 500. -/
theorem aggregator_writes_scan_count (items : Option (List JSValue))
    (put : JSProps → CountActiveSessions.PutOutcome) (putClock bodyClock : Int) :
    (∃ item, (CountActiveSessions.handler (CountActiveSessions.ScanOutcome.returned items) put
        putClock bodyClock).puts = [item] ∧
      item.lookup "id" = some (JSValue.str "current") ∧
      item.lookup "count" = some (JSValue.num (CountActiveSessions.activeCount items) 0) ∧
      (put item = CountActiveSessions.PutOutcome.stored →
        (CountActiveSessions.handler (CountActiveSessions.ScanOutcome.returned items) put
          putClock bodyClock).response.statusCode = 200 ∧
        (CountActiveSessions.handler (CountActiveSessions.ScanOutcome.returned items) put
          putClock bodyClock).response.body.lookup "activeUsers" =
            some (JSValue.num (CountActiveSessions.activeCount items) 0)) ∧
      (∀ message, put item = CountActiveSessions.PutOutcome.failed message →
        (CountActiveSessions.handler (CountActiveSessions.ScanOutcome.returned items) put
          putClock bodyClock).response.statusCode = 500)) ∧
    (∀ list, items = some list → CountActiveSessions.activeCount items = list.length) ∧
    (items = none ∨ items = some [] → CountActiveSessions.activeCount items = 0) := by
  refine ⟨⟨CountActiveSessions.counterItem (CountActiveSessions.activeCount items) putClock,
    ?_, ?_, ?_, ?_, ?_⟩, ?_, ?_⟩
  · unfold CountActiveSessions.handler
    simp only
    split <;> rfl
  · simp [CountActiveSessions.counterItem, JSProps.lookup]
  · simp [CountActiveSessions.counterItem, JSProps.lookup]
  · intro hput
    simp [CountActiveSessions.handler, hput, JSProps.lookup]
  · intro message hput
    simp [CountActiveSessions.handler, hput]
  · intro list hlist
    subst hlist
    rfl
  · rintro (h | h) <;> subst h <;> rfl

/-! ## The in-flight guard of `trackView` -/

theorem coherent_initial : Tracker.State.initial.Coherent := by
  refine ⟨List.nodup_nil, ?_, ?_, List.nodup_nil⟩
  · intro k hk
    cases hk
  · intro t ht
    cases ht

theorem coherent_trackView (s : Tracker.State) (videoId : String) (h : s.Coherent) :
    (Tracker.trackView s videoId).Coherent := by
  obtain ⟨h1, h2, h3, h4⟩ := h
  unfold Tracker.trackView
  simp only
  split
  · exact ⟨h1, h2, h3, h4⟩
  · rename_i hmem
    have hpend : videoId ∉ s.pending := fun hp => hmem (h2 videoId hp)
    refine ⟨?_, ?_, ?_, h4⟩
    · exact List.Nodup.append h1 (List.nodup_singleton _) (by simpa using hpend)
    · intro k hk
      rcases List.mem_append.mp hk with hk | hk
      · exact List.mem_append_left _ (h2 k hk)
      · exact List.mem_append_right _ hk
    · intro t ht
      obtain ⟨ht1, ht2⟩ := h3 t ht
      refine ⟨List.mem_append_left _ ht1, ?_⟩
      intro hk
      rcases List.mem_append.mp hk with hk | hk
      · exact ht2 hk
      · have : t.1 = videoId := by simpa using hk
        exact hmem (this ▸ ht1)

theorem coherent_visit (s : Tracker.State) (now : Int) (video : Tracker.Video)
    (h : s.Coherent) : (Tracker.visit s now video).Coherent := by
  unfold Tracker.visit
  split
  · exact h
  · split
    · exact h
    · split
      · exact h
      · split
        · exact coherent_trackView _ _ h
        · exact h

theorem coherent_tick (readings : List (Int × Tracker.Video)) (s : Tracker.State)
    (h : s.Coherent) : (Tracker.tick s readings).Coherent := by
  induction readings generalizing s with
  | nil => exact h
  | cons r rest ih => exact ih _ (coherent_visit s r.1 r.2 h)

theorem coherent_settle (s : Tracker.State) (now : Int) (videoId : String)
    (h : s.Coherent) : (Tracker.settle s now videoId).Coherent := by
  obtain ⟨h1, h2, h3, h4⟩ := h
  unfold Tracker.settle
  split
  · rename_i hpend
    refine ⟨h1.erase _, ?_, ?_, ?_⟩
    · intro k hk
      exact h2 k (List.mem_of_mem_erase hk)
    · intro t ht
      rcases List.mem_append.mp ht with ht | ht
      · obtain ⟨ht1, ht2⟩ := h3 t ht
        exact ⟨ht1, fun hk => ht2 (List.mem_of_mem_erase hk)⟩
      · have ht' : t = (videoId, now + 5000) := by simpa using ht
        subst ht'
        refine ⟨h2 videoId hpend, ?_⟩
        intro hk
        exact ((List.Nodup.mem_erase_iff h1).mp hk).1 rfl
    · rw [List.map_append]
      refine List.Nodup.append h4 (List.nodup_singleton _) ?_
      simp only [List.map_cons, List.map_nil, List.disjoint_singleton, List.mem_map, not_exists,
        not_and]
      intro t ht heq
      exact (h3 t ht).2 (heq ▸ hpend)
  · exact ⟨h1, h2, h3, h4⟩

theorem coherent_timeout (s : Tracker.State) (now : Int) (videoId : String)
    (h : s.Coherent) : (Tracker.timeout s now videoId).Coherent := by
  obtain ⟨h1, h2, h3, h4⟩ := h
  unfold Tracker.timeout
  split
  · rename_i t hfind
    have htmem : t ∈ s.timers := List.mem_of_find?_eq_some hfind
    have htid : t.1 = videoId := by
      have := List.find?_some hfind
      simp only [Bool.and_eq_true, decide_eq_true_eq] at this
      exact this.1
    have hnodup : s.timers.Nodup := List.Nodup.of_map _ h4
    refine ⟨h1, ?_, ?_, ?_⟩
    · intro k hk
      refine List.mem_filter.mpr ⟨h2 k hk, ?_⟩
      have : k ≠ videoId := by
        intro he
        subst he
        exact (h3 t htmem).2 (htid ▸ hk)
      simpa using this
    · intro t' ht'
      obtain ⟨hne, hmem'⟩ := (List.Nodup.mem_erase_iff hnodup).mp ht'
      obtain ⟨ht1, ht2⟩ := h3 t' hmem'
      refine ⟨List.mem_filter.mpr ⟨ht1, ?_⟩, ht2⟩
      have : t'.1 ≠ videoId := by
        intro he
        apply hne
        exact List.inj_on_of_nodup_map h4 hmem' htmem (he.trans htid.symm)
      simpa using this
    · exact h4.sublist ((List.erase_sublist t s.timers).map Prod.fst)
  · exact ⟨h1, h2, h3, h4⟩

/-- Every state the tracker can reach is coherent. -/
theorem coherent_run (events : List Tracker.Event) (s : Tracker.State) (h : s.Coherent) :
    (Tracker.run s events).Coherent := by
  induction events generalizing s with
  | nil => exact h
  | cons e rest ih =>
    apply ih
    cases e with
    | tick readings => exact coherent_tick readings s h
    | settle now videoId => exact coherent_settle s now videoId h
    | timeout now videoId => exact coherent_timeout s now videoId h

theorem coherent_of_reachable (s : Tracker.State) (h : Tracker.Reachable s) : s.Coherent := by
  obtain ⟨events, rfl⟩ := h
  exact coherent_run events _ coherent_initial

/-- C13: in every state the tracker can reach, `trackView` of an id in the
in-flight set posts nothing and leaves the set as it is, and `trackView` of
an id not in the set adds it and posts exactly one `updateVideo` mutation for
the id with `total_views` 1 and `recent_views` 1.  Once the request is over,
whatever the reply (data, GraphQL errors, an exception), the id stays in the
set until the timer set by the `finally` block runs: no timer of the id runs
before 5000 ms have passed, and when it runs the id is removed.  No id ever
has two requests in flight. -/
theorem inflight_guard (rt : Runtime) (s : Tracker.State) (videoId : String) (reply : Reply)
    (now t : Int) (hreach : Tracker.Reachable s) :
    (videoId ∈ s.tracking →
      (Tracker.trackView s videoId).dispatched = s.dispatched ∧
      (Tracker.trackView s videoId).pending = s.pending ∧
      (Tracker.trackView s videoId).tracking = s.tracking) ∧
    (videoId ∉ s.tracking →
      (Tracker.trackView s videoId).tracking = s.tracking ++ [videoId] ∧
      (Tracker.trackView s videoId).dispatched = s.dispatched ++ [⟨videoId, 1, 1⟩] ∧
      (Tracker.trackView s videoId).pending = s.pending ++ [videoId]) ∧
    (videoId ∈ s.pending →
      videoId ∈ (Tracker.finish rt reply s now videoId).2.tracking ∧
      videoId ∉ (Tracker.finish rt reply s now videoId).2.pending ∧
      (t < now + 5000 →
        Tracker.timeout (Tracker.finish rt reply s now videoId).2 t videoId =
          (Tracker.finish rt reply s now videoId).2) ∧
      (now + 5000 ≤ t →
        videoId ∉ (Tracker.timeout (Tracker.finish rt reply s now videoId).2 t
          videoId).tracking)) ∧
    s.pending.Nodup ∧ (∀ k, k ∈ s.pending → k ∈ s.tracking) := by
  obtain ⟨h1, h2, h3, h4⟩ := coherent_of_reachable s hreach
  refine ⟨?_, ?_, ?_, h1, h2⟩
  · intro hmem
    simp [Tracker.trackView, hmem]
  · intro hmem
    simp [Tracker.trackView, hmem]
  · intro hpend
    have hsettle : (Tracker.finish rt reply s now videoId).2 =
        { s with pending := s.pending.erase videoId,
                 timers := s.timers ++ [(videoId, now + 5000)] } := by
      simp [Tracker.finish, Tracker.settle, hpend]
    rw [hsettle]
    refine ⟨h2 videoId hpend, ?_, ?_, ?_⟩
    · intro hk
      exact ((List.Nodup.mem_erase_iff h1).mp hk).1 rfl
    · intro ht
      have hnone : (s.timers ++ [(videoId, now + 5000)]).find?
          (fun x => x.1 = videoId && decide (x.2 ≤ t)) = none := by
        rw [List.find?_eq_none]
        intro x hx
        rcases List.mem_append.mp hx with hx | hx
        · have hne : x.1 ≠ videoId := fun he => (h3 x hx).2 (he ▸ hpend)
          simp [hne]
        · have hx' : x = (videoId, now + 5000) := by simpa using hx
          subst hx'
          have : ¬ now + 5000 ≤ t := by omega
          simp [this]
      simp only [Tracker.timeout, hnone]
    · intro ht
      unfold Tracker.timeout
      simp only
      split
      · simp
      · rename_i hnone
        rw [List.find?_eq_none] at hnone
        have := hnone (videoId, now + 5000) (by simp)
        simp [ht] at this

theorem inflight_guard_witness :
    (Tracker.trackView (Tracker.run Tracker.State.initial
        [Tracker.Event.tick [(100000, Tracker.Sample.playing)]]) "42").dispatched =
      (Tracker.run Tracker.State.initial
        [Tracker.Event.tick [(100000, Tracker.Sample.playing)]]).dispatched :=
  ((inflight_guard Runtime.node
    (Tracker.run Tracker.State.initial [Tracker.Event.tick [(100000, Tracker.Sample.playing)]])
    "42" Reply.networkError 100300 105300
    ⟨[Tracker.Event.tick [(100000, Tracker.Sample.playing)]], rfl⟩).1 (by decide)).1

/-! ## The dashboard renderer -/

theorem map_eq_map_some_filterMap {α β : Type} (f : α → Option β) (l : List α)
    (h : ∀ a, a ∈ l → ∃ b, f a = some b) : l.map f = (l.filterMap f).map some := by
  induction l with
  | nil => rfl
  | cons a rest ih =>
    obtain ⟨b, hb⟩ := h a (List.mem_cons_self _ _)
    rw [List.map_cons, List.filterMap_cons_some hb, List.map_cons, hb,
      ih (fun x hx => h x (List.mem_cons_of_mem _ hx))]

theorem collect_eq_none_of_mem {α : Type} (slots : List (Option α)) (h : none ∈ slots) :
    collect slots = none := by
  induction slots with
  | nil => simp at h
  | cons slot rest ih =>
    cases slot with
    | none => rfl
    | some v =>
      have hrest : none ∈ rest := by simpa using h
      simp [collect, ih hrest]

theorem getVideo_of_readable (v : JSValue) (h : v.readable = true) :
    ∃ g, Dashboard.getVideo v = some g := by
  obtain ⟨inner, hinner⟩ := v.getProp_of_readable "data" h
  unfold Dashboard.getVideo
  rw [hinner]
  by_cases hr : inner.readable = true
  · obtain ⟨g, hg⟩ := inner.getProp_of_readable "getVideo" hr
    exact ⟨g, by simp [hr, hg]⟩
  · exact ⟨JSValue.undefined, by simp [hr]⟩

theorem getVideo_of_not_readable (v : JSValue) (h : v.readable = false) :
    Dashboard.getVideo v = none := by
  cases v <;> simp [JSValue.readable] at h <;> simp [Dashboard.getVideo, JSValue.getProp]

/-- For numbers other than `NaN`, the difference `y - x` is not positive
exactly when `x >= y`. -/
theorem JSNumber.subSign_nonpos_iff (x y : JSNumber) (hx : x ≠ JSNumber.nan)
    (hy : y ≠ JSNumber.nan) : JSNumber.subSign y x ≤ 0 ↔ JSNumber.atLeast x y = true := by
  cases x <;> cases y <;> simp [JSNumber.subSign, JSNumber.atLeast] at hx hy ⊢
  rename_i a b
  split_ifs with h1 h2
  · simp [le_of_lt h1]
  · simp [h2]
  · have : a < b := lt_of_le_of_ne (not_lt.mp h1) (fun h => h2 h.symm)
    simp [not_le.mpr this]

theorem JSNumber.atLeast_total (x y : JSNumber) (hx : x ≠ JSNumber.nan)
    (hy : y ≠ JSNumber.nan) : JSNumber.atLeast x y = true ∨ JSNumber.atLeast y x = true := by
  cases x <;> cases y <;> simp [JSNumber.atLeast] at hx hy ⊢
  exact le_total _ _

theorem JSNumber.atLeast_trans (x y z : JSNumber) (hxy : JSNumber.atLeast x y = true)
    (hyz : JSNumber.atLeast y z = true) : JSNumber.atLeast x z = true := by
  cases x <;> cases y <;> cases z <;> simp [JSNumber.atLeast] at hxy hyz ⊢
  exact le_trans hyz hxy

theorem JSNumber.ne_nan_of_atLeast (x y : JSNumber) (h : JSNumber.atLeast x y = true) :
    x ≠ JSNumber.nan ∧ y ≠ JSNumber.nan := by
  cases x <;> cases y <;> simp [JSNumber.atLeast] at h ⊢

/-- Inserting into a sorted list keeps it sorted when the relation is total
and transitive on the elements at hand. -/
theorem pairwise_orderedInsert_of {α : Type} (r : α → α → Prop) [DecidableRel r] (a : α)
    (l : List α) (htot : ∀ b, b ∈ l → r a b ∨ r b a)
    (htrans : ∀ b c, b ∈ l → c ∈ l → r a b → r b c → r a c) (hl : l.Pairwise r) :
    (l.orderedInsert r a).Pairwise r := by
  induction l with
  | nil => simp
  | cons b rest ih =>
    rw [List.pairwise_cons] at hl
    rw [List.orderedInsert]
    split_ifs with hab
    · rw [List.pairwise_cons]
      refine ⟨?_, List.pairwise_cons.mpr hl⟩
      intro c hc
      rcases List.mem_cons.mp hc with rfl | hc
      · exact hab
      · exact htrans b c (List.mem_cons_self _ _) (List.mem_cons_of_mem _ hc) hab (hl.1 c hc)
    · rw [List.pairwise_cons]
      refine ⟨?_, ih (fun c hc => htot c (List.mem_cons_of_mem _ hc))
        (fun c d hc hd => htrans c d (List.mem_cons_of_mem _ hc) (List.mem_cons_of_mem _ hd))
        hl.2⟩
      intro c hc
      rcases (List.mem_orderedInsert r).mp hc with rfl | hc
      · exact (htot b (List.mem_cons_self _ _)).resolve_left hab
      · exact hl.1 c hc

/-- Insertion sort sorts when the relation is total and transitive on the
elements of the list. -/
theorem pairwise_insertionSort_of {α : Type} (r : α → α → Prop) [DecidableRel r] (l : List α)
    (htot : ∀ a b, a ∈ l → b ∈ l → r a b ∨ r b a)
    (htrans : ∀ a b c, a ∈ l → b ∈ l → c ∈ l → r a b → r b c → r a c) :
    (l.insertionSort r).Pairwise r := by
  induction l with
  | nil => simp
  | cons a rest ih =>
    rw [List.insertionSort]
    have hmem : ∀ x, x ∈ rest.insertionSort r → x ∈ rest :=
      fun x hx => (List.perm_insertionSort r rest).mem_iff.mp hx
    refine pairwise_orderedInsert_of r a _
      (fun b hb => htot a b (List.mem_cons_self _ _) (List.mem_cons_of_mem _ (hmem b hb)))
      (fun b c hb hc => htrans a b c (List.mem_cons_self _ _)
        (List.mem_cons_of_mem _ (hmem b hb)) (List.mem_cons_of_mem _ (hmem c hc)))
      (ih (fun x y hx hy => htot x y (List.mem_cons_of_mem _ hx) (List.mem_cons_of_mem _ hy))
        (fun x y z hx hy hz => htrans x y z (List.mem_cons_of_mem _ hx)
          (List.mem_cons_of_mem _ hy) (List.mem_cons_of_mem _ hz)))

/-- Between two videos whose `total_views` are numbers other than `NaN` the
comparator keeps `a` before `b` exactly when `a.total_views >= b.total_views`. -/
theorem keepsOrder_iff (a b : JSValue) (ka kb : JSNumber)
    (ha : Dashboard.totalViews a = some ka) (hb : Dashboard.totalViews b = some kb)
    (hka : ka ≠ JSNumber.nan) (hkb : kb ≠ JSNumber.nan) :
    Dashboard.keepsOrder a b = true ↔ ka.atLeast kb = true := by
  unfold Dashboard.keepsOrder
  rw [ha, hb]
  simp only [decide_eq_true_eq]
  exact JSNumber.subSign_nonpos_iff ka kb hka hkb

/-- The sort by `total_views`: on fewer than two videos, and on videos whose
`total_views` all convert to numbers other than `NaN`, it returns the videos
it was given, in non-increasing order of `total_views`. -/
theorem sortByTotalViews_spec (videos : List JSValue)
    (hkeys : 2 ≤ videos.length → ∀ video, video ∈ videos →
      ∃ k, Dashboard.totalViews video = some k ∧ k ≠ JSNumber.nan) :
    ∃ sorted, Dashboard.sortByTotalViews videos = Dashboard.Sorted.inOrder sorted ∧
      sorted.Perm videos ∧
      sorted.Pairwise (fun a b => ∃ ka kb, Dashboard.totalViews a = some ka ∧
        Dashboard.totalViews b = some kb ∧ ka.atLeast kb = true) := by
  by_cases hlen : videos.length ≤ 1
  · refine ⟨videos, by simp [Dashboard.sortByTotalViews, hlen], List.Perm.refl _, ?_⟩
    match videos, hlen with
    | [], _ => exact List.Pairwise.nil
    | [x], _ => exact List.pairwise_singleton _ _
    | _ :: _ :: _, h => simp at h
  · have hk := hkeys (by omega)
    have hany : videos.any (fun video => (Dashboard.totalViews video).isNone) = false := by
      rw [List.any_eq_false]
      intro video hv
      obtain ⟨k, hk1, _⟩ := hk video hv
      simp [hk1]
    have hiff : ∀ a b, a ∈ videos → b ∈ videos → (Dashboard.keepsOrder a b = true ↔
        ∃ ka kb, Dashboard.totalViews a = some ka ∧ Dashboard.totalViews b = some kb ∧
          ka.atLeast kb = true) := by
      intro a b ha hb
      obtain ⟨ka, hka, hka1⟩ := hk a ha
      obtain ⟨kb, hkb, hkb1⟩ := hk b hb
      rw [keepsOrder_iff a b ka kb hka hkb hka1 hkb1]
      constructor
      · intro h
        exact ⟨ka, kb, hka, hkb, h⟩
      · rintro ⟨ka1, kb1, h1, h2, h3⟩
        rw [hka] at h1
        rw [hkb] at h2
        cases h1
        cases h2
        exact h3
    have htot : ∀ a b, a ∈ videos → b ∈ videos →
        Dashboard.keepsOrder a b = true ∨ Dashboard.keepsOrder b a = true := by
      intro a b ha hb
      obtain ⟨ka, hka, hka1⟩ := hk a ha
      obtain ⟨kb, hkb, hkb1⟩ := hk b hb
      rw [keepsOrder_iff a b ka kb hka hkb hka1 hkb1, keepsOrder_iff b a kb ka hkb hka hkb1 hka1]
      exact JSNumber.atLeast_total ka kb hka1 hkb1
    have htrans : ∀ a b c, a ∈ videos → b ∈ videos → c ∈ videos →
        Dashboard.keepsOrder a b = true → Dashboard.keepsOrder b c = true →
        Dashboard.keepsOrder a c = true := by
      intro a b c ha hb hc
      obtain ⟨ka, hka, hka1⟩ := hk a ha
      obtain ⟨kb, hkb, hkb1⟩ := hk b hb
      obtain ⟨kc, hkc, hkc1⟩ := hk c hc
      rw [keepsOrder_iff a b ka kb hka hkb hka1 hkb1, keepsOrder_iff b c kb kc hkb hkc hkb1 hkc1,
        keepsOrder_iff a c ka kc hka hkc hka1 hkc1]
      exact JSNumber.atLeast_trans ka kb kc
    have hcons : Dashboard.consistentOn videos = true := by
      unfold Dashboard.consistentOn
      rw [List.all_eq_true]
      intro a ha
      rw [List.all_eq_true]
      intro b hb
      rw [List.all_eq_true]
      intro c hc
      by_cases hab : Dashboard.keepsOrder a b = true
      · by_cases hbc : Dashboard.keepsOrder b c = true
        · simp [htrans a b c ha hb hc hab hbc]
        · simp [hbc]
      · simp [hab]
    have hperm := List.perm_insertionSort (fun a b => Dashboard.keepsOrder a b = true) videos
    refine ⟨videos.insertionSort (fun a b => Dashboard.keepsOrder a b = true), ?_, hperm, ?_⟩
    · simp [Dashboard.sortByTotalViews, hlen, hany, hcons]
    · refine List.Pairwise.imp_of_mem ?_
        (pairwise_insertionSort_of (fun a b => Dashboard.keepsOrder a b = true) videos htot htrans)
      intro a b ha hb hab
      exact (hiff a b (hperm.mem_iff.mp ha) (hperm.mem_iff.mp hb)).mp hab

theorem hasViewCount_iff (video : JSValue) :
    Dashboard.hasViewCount video = true ↔
      ∃ k, Dashboard.totalViews video = some k ∧ k ≠ JSNumber.nan := by
  unfold Dashboard.hasViewCount
  cases h : Dashboard.totalViews video <;> simp

theorem viewsAtLeast_iff (a b : JSValue) :
    Dashboard.viewsAtLeast a b = true ↔
      ∃ ka kb, Dashboard.totalViews a = some ka ∧ Dashboard.totalViews b = some kb ∧
        ka.atLeast kb = true := by
  unfold Dashboard.viewsAtLeast
  cases ha : Dashboard.totalViews a <;> cases hb : Dashboard.totalViews b <;> simp

/-- The order of three videos with 1, 2.5 and "2" views: 2.5, "2", 1. -/
theorem popular_videos_fraction_order :
    Dashboard.updatePopularVideos Runtime.node Dashboard.AnalyticsDashboard.new true
        Dashboard.Sample.fractionBackend =
      some (Dashboard.Update.completed
        (some [Dashboard.Sample.video "6963744" (JSValue.num 25 (-1)) JSValue.null,
          Dashboard.Sample.video "7140928" (JSValue.str "2") JSValue.null,
          Dashboard.Sample.video "4990233" (JSValue.num 1 0) JSValue.null])
        [Dashboard.Sample.video "6963744" (JSValue.num 25 (-1)) JSValue.null,
          Dashboard.Sample.video "7140928" (JSValue.str "2") JSValue.null,
          Dashboard.Sample.video "4990233" (JSValue.num 1 0) JSValue.null]) := by
  decide!

/-- A single video without `total_views` is rendered and passed on: the
comparator is not called. -/
theorem popular_videos_single_unrated :
    Dashboard.updatePopularVideos Runtime.node Dashboard.AnalyticsDashboard.new true
        Dashboard.Sample.singleUnratedBackend =
      some (Dashboard.Update.completed
        (some [JSValue.obj (JSProps.cons "id" (JSValue.str "4990233")
          (JSProps.cons "recent_views" (JSValue.num 2 0) JSProps.nil))])
        [JSValue.obj (JSProps.cons "id" (JSValue.str "4990233")
          (JSProps.cons "recent_views" (JSValue.num 2 0) JSProps.nil))]) := by
  decide!

/-- C12 (as stated, refuted): (1) three responses carry a `getVideo` result,
the fourth has a body that is not JSON; the run is abandoned in the `catch`:
nothing is rendered and `updateMetrics` is not called, so the three videos are
lost, (2) where the same three responses beside a response without a video
are rendered and passed on.  (3) Two responses carry a video, the first
without `total_views`: the sort leaves it, with `NaN` for `total_views`,
before the video with 9 views.  (4) A response carries a video whose `id` has
no string: the template throws and the run is abandoned. -/
theorem popular_videos_lost_or_out_of_order :
    Dashboard.updatePopularVideos Runtime.node Dashboard.AnalyticsDashboard.new true
        Dashboard.Sample.brokenBackend = some Dashboard.Update.abandoned ∧
      Dashboard.updatePopularVideos Runtime.node Dashboard.AnalyticsDashboard.new true
        Dashboard.Sample.backend =
        some (Dashboard.Update.completed
          (some [Dashboard.Sample.video "6963744" (JSValue.num 9 0) JSValue.null,
            Dashboard.Sample.video "4990233" (JSValue.num 5 0) (JSValue.num 2 0),
            Dashboard.Sample.video "7140928" JSValue.null (JSValue.num 1 0)])
          [Dashboard.Sample.video "6963744" (JSValue.num 9 0) JSValue.null,
            Dashboard.Sample.video "4990233" (JSValue.num 5 0) (JSValue.num 2 0),
            Dashboard.Sample.video "7140928" JSValue.null (JSValue.num 1 0)]) ∧
      (Dashboard.updatePopularVideos Runtime.node Dashboard.AnalyticsDashboard.new true
          Dashboard.Sample.unratedBackend =
          some (Dashboard.Update.completed
            (some [JSValue.obj (JSProps.cons "id" (JSValue.str "4990233")
                (JSProps.cons "recent_views" (JSValue.num 2 0) JSProps.nil)),
              Dashboard.Sample.video "6963744" (JSValue.num 9 0) JSValue.null])
            [JSValue.obj (JSProps.cons "id" (JSValue.str "4990233")
                (JSProps.cons "recent_views" (JSValue.num 2 0) JSProps.nil)),
              Dashboard.Sample.video "6963744" (JSValue.num 9 0) JSValue.null]) ∧
        Dashboard.totalViews (JSValue.obj (JSProps.cons "id" (JSValue.str "4990233")
            (JSProps.cons "recent_views" (JSValue.num 2 0) JSProps.nil))) = some JSNumber.nan ∧
        Dashboard.totalViews (Dashboard.Sample.video "6963744" (JSValue.num 9 0) JSValue.null) =
          some (JSNumber.finite 9) ∧
        Dashboard.viewsAtLeast
          (JSValue.obj (JSProps.cons "id" (JSValue.str "4990233")
            (JSProps.cons "recent_views" (JSValue.num 2 0) JSProps.nil)))
          (Dashboard.Sample.video "6963744" (JSValue.num 9 0) JSValue.null) = false) ∧
      Dashboard.updatePopularVideos Runtime.node Dashboard.AnalyticsDashboard.new true
        Dashboard.Sample.unprintableBackend = some Dashboard.Update.abandoned := by
  decide!

theorem hasViewCount_of_viewsAtLeast (a b : JSValue) (h : Dashboard.viewsAtLeast a b = true) :
    Dashboard.hasViewCount a = true ∧ Dashboard.hasViewCount b = true := by
  obtain ⟨ka, kb, ha, hb, hab⟩ := (viewsAtLeast_iff a b).mp h
  obtain ⟨h1, h2⟩ := JSNumber.ne_nan_of_atLeast ka kb hab
  exact ⟨(hasViewCount_iff a).mpr ⟨ka, ha, h1⟩, (hasViewCount_iff b).mpr ⟨kb, hb, h2⟩⟩

theorem hasViewCount_of_pairwise (l : List JSValue) (hlen : 2 ≤ l.length)
    (h : l.Pairwise (fun a b => Dashboard.viewsAtLeast a b = true)) :
    ∀ video, video ∈ l → Dashboard.hasViewCount video = true := by
  match l, hlen, h with
  | a :: b :: rest, _, h =>
    rw [List.pairwise_cons] at h
    intro video hv
    rcases List.mem_cons.mp hv with rfl | hv
    · exact (hasViewCount_of_viewsAtLeast _ b (h.1 b (List.mem_cons_self _ _))).1
    · exact (hasViewCount_of_viewsAtLeast a video (h.1 video hv)).2

theorem sortByTotalViews_perm (videos sorted : List JSValue)
    (h : Dashboard.sortByTotalViews videos = Dashboard.Sorted.inOrder sorted) :
    sorted.Perm videos := by
  unfold Dashboard.sortByTotalViews at h
  split_ifs at h
  · cases h
    exact List.Perm.refl _
  · cases h
    exact List.perm_insertionSort _ _

/-- The conditions of the amended claim are needed: when every request is
answered with a JSON body and the run completes with a list in
non-increasing order of `total_views`, no body is `null`, the `total_views`
of two or more kept videos are numbers other than `NaN`, and with a container
the kept videos have strings for the values the template prints. -/
theorem popular_videos_conditions_needed (rt : Runtime)
    (dashboard : Dashboard.AnalyticsDashboard) (container : Bool) (backend : String → Reply)
    (videos : List JSValue) (rendered : Option (List JSValue)) (videoData : List JSValue)
    (hbodies : dashboard.videoIds.map (fun id => Dashboard.jsonOf rt (backend id)) =
      videos.map some)
    (hrun : Dashboard.updatePopularVideos rt dashboard container backend =
      some (Dashboard.Update.completed rendered videoData))
    (hpair : videoData.Pairwise (fun a b => Dashboard.viewsAtLeast a b = true)) :
    (∀ v, v ∈ videos → v.readable = true) ∧
      (2 ≤ ((videos.filterMap Dashboard.getVideo).filter JSValue.toBoolean).length →
        ∀ video, video ∈ (videos.filterMap Dashboard.getVideo).filter JSValue.toBoolean →
          Dashboard.hasViewCount video = true) ∧
      (container = true →
        ∀ video, video ∈ (videos.filterMap Dashboard.getVideo).filter JSValue.toBoolean →
          Dashboard.renders video = true) := by
  unfold Dashboard.updatePopularVideos at hrun
  rw [hbodies, collect_map_some] at hrun
  simp only at hrun
  have hreadable : ∀ v, v ∈ videos → v.readable = true := by
    intro v hv
    by_contra hr
    have hnone : Dashboard.getVideo v = none :=
      getVideo_of_not_readable v (by simpa using hr)
    rw [collect_eq_none_of_mem _ (List.mem_map.mpr ⟨v, hv, hnone⟩)] at hrun
    simp at hrun
  rw [map_eq_map_some_filterMap Dashboard.getVideo videos
    (fun v hv => getVideo_of_readable v (hreadable v hv)), collect_map_some] at hrun
  simp only at hrun
  refine ⟨hreadable, ?_⟩
  cases hsort : Dashboard.sortByTotalViews
      ((videos.filterMap Dashboard.getVideo).filter JSValue.toBoolean) with
  | threw => simp [hsort] at hrun
  | implementationDefined => simp [hsort] at hrun
  | inOrder sorted =>
    have hperm := sortByTotalViews_perm _ _ hsort
    simp only [hsort] at hrun
    by_cases hc : (container && !sorted.isEmpty) = true
    · by_cases hall : sorted.all Dashboard.renders = true
      · simp only [hc, hall, if_true, Option.some.injEq, Dashboard.Update.completed.injEq] at hrun
        obtain ⟨_, hdata⟩ := hrun
        subst hdata
        refine ⟨fun hlen => ?_, fun _ video hv => ?_⟩
        · intro video hv
          exact hasViewCount_of_pairwise sorted (by rw [hperm.length_eq]; exact hlen) hpair
            video (hperm.mem_iff.mpr hv)
        · exact (List.all_eq_true.mp hall) video (hperm.mem_iff.mpr hv)
      · simp [hc, hall] at hrun
    · simp only [hc, Bool.false_eq_true, if_false, Option.some.injEq,
        Dashboard.Update.completed.injEq] at hrun
      obtain ⟨_, hdata⟩ := hrun
      subst hdata
      refine ⟨fun hlen => ?_, fun hcontainer video hv => ?_⟩
      · intro video hv
        exact hasViewCount_of_pairwise sorted (by rw [hperm.length_eq]; exact hlen) hpair
          video (hperm.mem_iff.mpr hv)
      · exfalso
        have hmem := hperm.mem_iff.mpr hv
        apply hc
        rw [hcontainer]
        cases sorted with
        | nil => simp at hmem
        | cons x xs => rfl

/-- C12 (amended): (1) when every request is answered with a JSON body other
than `null`, the `total_views` of the kept videos convert to numbers other
than `NaN` if two or more videos are kept, and the `id`, `total_views` and
`recent_views` of the kept videos have strings if the container exists, then
`updatePopularVideos` completes, and the list it passes to `updateMetrics`,
which is also the list it renders when the container exists and the list is
not empty, is exactly the truthy `getVideo` results of the responses (nothing
added, nothing lost), in non-increasing order of `total_views`; (2) when some
request fails, or is answered with a body that is not JSON or is `null`, the
run is abandoned in the `catch`: nothing is rendered and `updateMetrics` is
not called. -/
theorem popular_videos_sorted_filter (rt : Runtime) (dashboard : Dashboard.AnalyticsDashboard)
    (container : Bool) (backend : String → Reply) :
    (∀ videos : List JSValue,
      dashboard.videoIds.map (fun id => Dashboard.jsonOf rt (backend id)) = videos.map some →
      (∀ v, v ∈ videos → v.readable = true) →
      (2 ≤ ((videos.filterMap Dashboard.getVideo).filter JSValue.toBoolean).length →
        ∀ video, video ∈ (videos.filterMap Dashboard.getVideo).filter JSValue.toBoolean →
          Dashboard.hasViewCount video = true) →
      (container = true →
        ∀ video, video ∈ (videos.filterMap Dashboard.getVideo).filter JSValue.toBoolean →
          Dashboard.renders video = true) →
      ∃ videoData,
        Dashboard.updatePopularVideos rt dashboard container backend =
          some (Dashboard.Update.completed
            (if container && !videoData.isEmpty then some videoData else none) videoData) ∧
        videoData.Perm ((videos.filterMap Dashboard.getVideo).filter JSValue.toBoolean) ∧
        videoData.Pairwise (fun a b => Dashboard.viewsAtLeast a b = true)) ∧
    ((∃ id, id ∈ dashboard.videoIds ∧
        ∀ v, Dashboard.jsonOf rt (backend id) = some v → v.readable = false) →
      Dashboard.updatePopularVideos rt dashboard container backend =
        some Dashboard.Update.abandoned) := by
  constructor
  · intro videos hbodies hreadable hkeys hrender
    obtain ⟨sorted, hsort, hperm, hpair⟩ := sortByTotalViews_spec
      ((videos.filterMap Dashboard.getVideo).filter JSValue.toBoolean)
      (fun hlen video hv => (hasViewCount_iff video).mp (hkeys hlen video hv))
    refine ⟨sorted, ?_, hperm, hpair.imp (fun h => (viewsAtLeast_iff _ _).mpr h)⟩
    unfold Dashboard.updatePopularVideos
    rw [hbodies, collect_map_some]
    simp only
    rw [map_eq_map_some_filterMap Dashboard.getVideo videos
      (fun v hv => getVideo_of_readable v (hreadable v hv)), collect_map_some]
    simp only [hsort]
    by_cases hc : (container && !sorted.isEmpty) = true
    · have hcontainer : container = true := by
        cases container
        · simp at hc
        · rfl
      have hall : sorted.all Dashboard.renders = true := by
        rw [List.all_eq_true]
        intro video hv
        exact hrender hcontainer video (hperm.mem_iff.mp hv)
      simp [hc, hall]
    · simp [hc]
  · rintro ⟨id, hid, hbad⟩
    unfold Dashboard.updatePopularVideos
    cases hcollect : collect (dashboard.videoIds.map (fun id => Dashboard.jsonOf rt (backend id))) with
    | none => rfl
    | some videos =>
      simp only
      have hmap := (collect_eq_some_iff _ _).mp hcollect
      have hmem : Dashboard.jsonOf rt (backend id) ∈ videos.map some := by
        rw [← hmap]
        exact List.mem_map.mpr ⟨id, hid, rfl⟩
      obtain ⟨v, hv, hvid⟩ := List.mem_map.mp hmem
      have hnone : Dashboard.getVideo v = none :=
        getVideo_of_not_readable v (hbad v hvid.symm)
      have hcollect2 : collect (videos.map Dashboard.getVideo) = none :=
        collect_eq_none_of_mem _ (List.mem_map.mpr ⟨v, hv, hnone⟩)
      rw [hcollect2]

theorem popular_videos_sorted_filter_witness :
    (∃ videoData,
      Dashboard.updatePopularVideos Runtime.node Dashboard.AnalyticsDashboard.new true
          Dashboard.Sample.fractionBackend =
        some (Dashboard.Update.completed
          (if true && !videoData.isEmpty then some videoData else none) videoData) ∧
      videoData.Perm [Dashboard.Sample.video "4990233" (JSValue.num 1 0) JSValue.null,
        Dashboard.Sample.video "6963744" (JSValue.num 25 (-1)) JSValue.null,
        Dashboard.Sample.video "7140928" (JSValue.str "2") JSValue.null] ∧
      videoData.Pairwise (fun a b => Dashboard.viewsAtLeast a b = true)) ∧
    Dashboard.updatePopularVideos Runtime.node Dashboard.AnalyticsDashboard.new true
      Dashboard.Sample.brokenBackend = some Dashboard.Update.abandoned :=
  ⟨(popular_videos_sorted_filter Runtime.node Dashboard.AnalyticsDashboard.new true
      Dashboard.Sample.fractionBackend).1
      [JSValue.obj (JSProps.cons "data" (JSValue.obj (JSProps.cons "getVideo"
          (Dashboard.Sample.video "4990233" (JSValue.num 1 0) JSValue.null)
          JSProps.nil)) JSProps.nil),
        JSValue.obj (JSProps.cons "data" (JSValue.obj (JSProps.cons "getVideo"
          (Dashboard.Sample.video "6963744" (JSValue.num 25 (-1)) JSValue.null)
          JSProps.nil)) JSProps.nil),
        JSValue.obj (JSProps.cons "data" (JSValue.obj (JSProps.cons "getVideo"
          (Dashboard.Sample.video "7140928" (JSValue.str "2") JSValue.null)
          JSProps.nil)) JSProps.nil),
        JSValue.obj (JSProps.cons "data" (JSValue.obj (JSProps.cons "getVideo"
          JSValue.null JSProps.nil)) JSProps.nil)]
      (by decide!) (by decide!) (by decide!) (by decide!),
    (popular_videos_sorted_filter Runtime.node Dashboard.AnalyticsDashboard.new true
      Dashboard.Sample.brokenBackend).2 ⟨"3129957", by decide!, by decide!⟩⟩
